import Mathlib

set_option maxRecDepth 8000

/-!
# Verification of the IVY profile auto-tuning engine

Shallow embedding of the profile auto-tuning engine implemented in the
ProfilesPage of the IVY web UI (variation-matrix compiler, profile
descriptor builder, candidate evaluator, coordinate-descent optimizer and
multi-prompt aggregator).

Modelling conventions:
* JavaScript numbers are modelled as exact rationals (`ℚ`).  A float value
  that is not finite (`NaN`, `±Infinity`) is modelled as `none` wherever the
  code tests `Number.isFinite`; a mean of finitely many rationals is always
  finite, so `Number.isFinite` on such a derived value is identically true.
* `Number(string)` coercion is modelled for plain decimal literals
  (optional sign, digits, optional fraction); every numeric string produced
  or consumed by this engine has that shape.  Non-literals map to `none`
  (the `NaN` outcome).
* The remote benchmark endpoint is an oracle `ℕ → Except String ProfileResult`
  indexed by the number of calls issued so far; `.error` models a rejected
  request, `.ok` a delivered response (the engine always submits exactly one
  descriptor per call and reads the first returned profile).
* A thrown JS exception is `Except.error`; promise rejection propagates
  through `Except` bind exactly as `await` rethrows.
* `crypto.randomUUID()` produces a fresh identifier; the embedding passes
  the identifier explicitly (derived from the call counter), since no
  control flow ever inspects it.
-/

/-! ## JavaScript-style primitives -/

/- The JS string methods (`trim`, `toLowerCase`, `split`) and the numeric
casts are modelled by structurally recursive functions on the character
list, so that every concrete execution reduces inside the kernel. -/

def jsToLower (s : String) : String :=
  String.mk (s.data.map Char.toLower)

def trimChars (cs : List Char) : List Char :=
  ((cs.dropWhile Char.isWhitespace).reverse.dropWhile Char.isWhitespace).reverse

def jsTrim (s : String) : String :=
  String.mk (trimChars s.data)

def jsIsEmpty (s : String) : Bool :=
  s.data.isEmpty

/-- `s.split(sep)` for a one-character separator. -/
def splitChar (sep : Char) : List Char → List (List Char)
  | [] => [[]]
  | c :: cs =>
    if c = sep then [] :: splitChar sep cs
    else
      match splitChar sep cs with
      | [] => [[c]]
      | l :: ls => (c :: l) :: ls

def jsSplit (s : String) (sep : Char) : List String :=
  (splitChar sep s.data).map String.mk

def ratOfNat (n : ℕ) : ℚ :=
  mkRat (Int.ofNat n) 1

def ratOfInt (i : ℤ) : ℚ :=
  mkRat i 1

def pow10 : ℕ → ℚ
  | 0 => 1
  | d + 1 => 10 * pow10 d

/-- `Math.abs`. -/
def jsAbs (q : ℚ) : ℚ :=
  if q < 0 then -q else q

def digitsToNatAux (acc : ℕ) : List Char → ℕ
  | [] => acc
  | c :: cs => digitsToNatAux (10 * acc + (c.toNat - 48)) cs

def digitsToNat (cs : List Char) : ℕ :=
  digitsToNatAux 0 cs

/-- Model of the JavaScript coercion `Number(string)` on plain decimal
literals.  The empty (or all-whitespace) string coerces to `0` as in JS;
a non-literal yields `none`, the model of `NaN` (and of the non-finite
values, which the engine treats identically to `NaN` at every use site). -/
def jsNumber (value : String) : Option ℚ :=
  let t := jsTrim value
  if jsIsEmpty t then some 0
  else
    let cs := t.toList
    let signBody : ℚ × List Char :=
      match cs with
      | '-' :: rest => (-1, rest)
      | '+' :: rest => (1, rest)
      | _ => (1, cs)
    let intPart := signBody.2.takeWhile Char.isDigit
    let rest := signBody.2.dropWhile Char.isDigit
    match rest with
    | [] =>
      if intPart.isEmpty then none
      else some (signBody.1 * ratOfNat (digitsToNat intPart))
    | '.' :: frac =>
      if frac.all Char.isDigit ∧ ¬ (intPart.isEmpty ∧ frac.isEmpty) then
        some (signBody.1 * (ratOfNat (digitsToNat intPart) + ratOfNat (digitsToNat frac) / pow10 frac.length))
      else none
    | _ => none

/-- `parseFloatLoose` from the source: trim, reject empty, coerce, keep
only finite results. -/
def parseFloatLoose (value : String) : Option ℚ :=
  let trimmed := jsTrim value
  if jsIsEmpty trimmed then none else jsNumber trimmed

/-- `Math.trunc` (round toward zero). -/
def jsTrunc (q : ℚ) : ℤ :=
  if 0 ≤ q then ⌊q⌋ else ⌈q⌉

/-- `parseIntLoose` from the source: like `parseFloatLoose` then `Math.trunc`. -/
def parseIntLoose (value : String) : Option ℤ :=
  (parseFloatLoose value).map jsTrunc

def normalizeKey (key : String) : String :=
  jsToLower (jsTrim key)

/-- `coerceBoolean`: tolerant boolean coercion; raises on anything that is
not a recognized truthy/falsy synonym. -/
def coerceBoolean (value : String) : Except String Bool :=
  let lowered := jsToLower (jsTrim value)
  if lowered ∈ ["1", "true", "oui", "yes", "on"] then .ok true
  else if lowered ∈ ["0", "false", "non", "no", "off"] then .ok false
  else .error ("Valeur booleenne invalide: " ++ value)

/-- `normaliseSamples`: clamp the parsed sample count to `[1, 5]`,
defaulting to 1 when unparseable. -/
def normaliseSamples (value : String) : ℤ :=
  match parseIntLoose value with
  | none => 1
  | some parsed => if parsed < 1 then 1 else if parsed > 5 then 5 else parsed

/-- `(q).toFixed(d)` rounded value: `round(q·10^d)/10^d` (JS rounds to the
nearest representable; the exact-rational model rounds half up). -/
def fixedRound (q : ℚ) (d : ℕ) : ℚ :=
  ratOfInt (round (q * pow10 d)) / pow10 d

def padZeros (s : String) (width : ℕ) : String :=
  if s.length < width then String.mk (List.replicate (width - s.length) '0') ++ s else s

/-- `(q).toFixed(d)` as a string: the decimal rendering of `fixedRound q d`
with exactly `d` fraction digits. -/
def toFixedStr (q : ℚ) (d : ℕ) : String :=
  let scaled : ℤ := round (q * pow10 d)
  let sign := if scaled < 0 then "-" else ""
  let a := scaled.natAbs
  if d = 0 then sign ++ toString a
  else sign ++ toString (a / 10 ^ d) ++ "." ++ padZeros (toString (a % 10 ^ d)) d

/-! ## Data model -/

structure OptionFields where
  temperature : String
  top_p : String
  top_k : String
  repeat_penalty : String
  max_tokens : String
deriving DecidableEq

structure SettingFields where
  llm_model_path : String
  llm_speculative_model_path : String
  llm_context_tokens : String
  llm_n_gpu_layers : String
  llm_speculative_context_tokens : String
  llm_speculative_n_gpu_layers : String
  chat_system_prompt : String
deriving DecidableEq

structure ProfileForm where
  id : String
  name : String
  description : String
  samples : String
  speculative : Bool
  options : OptionFields
  settings : SettingFields
deriving DecidableEq

/-- A value found in a token-usage record: a (finite) number, a string, or
anything else (`null`, objects, …). -/
inductive JsVal where
  | num (q : ℚ)
  | str (s : String)
  | other
deriving DecidableEq

structure ProfileRun where
  latency_ms : Option ℚ
  speculative : Bool
  text : Option String
  usage : Option (List (String × JsVal))
deriving DecidableEq

structure ProfileResult where
  name : String
  description : Option String
  applied_settings : Option (List (String × JsVal))
  applied_options : Option (List (String × JsVal))
  samples : ℤ
  runs : List ProfileRun
  errors : List String
deriving DecidableEq

/-- `ProfileStats`.  The source stores `stdLatency = Math.sqrt(variance)`;
the rational model stores the variance and recovers the standard deviation
through `ProfileStats.stdLatency` below. -/
structure ProfileStats where
  averageLatency : ℚ
  minLatency : ℚ
  maxLatency : ℚ
  varLatency : ℚ
  averagePromptTokens : ℚ
  averageCompletionTokens : ℚ
  averageTotalTokens : ℚ
  runs : ℕ
deriving DecidableEq

noncomputable def ProfileStats.stdLatency (s : ProfileStats) : ℝ :=
  Real.sqrt (s.varLatency : ℝ)

structure ProfileSummary where
  profile : ProfileResult
  stats : ProfileStats
deriving DecidableEq

structure AutoStep where
  parameter : String
  value : String
  stats : ProfileStats
  success : Bool
  errors : List String
  improvement : ℚ
deriving DecidableEq

structure AutoSummary where
  baseline : ProfileSummary
  best : ProfileSummary
  steps : List AutoStep
deriving DecidableEq

structure CandidateRecord where
  profile : ProfileResult
  stats : ProfileStats
  profileForm : ProfileForm
  parameter : String
  value : String
  prompt : String
deriving DecidableEq

structure VariationDefinition where
  key : String
  label : String
  values : List String
deriving DecidableEq

structure AutoTuneResult where
  prompt : String
  summary : AutoSummary
  bestProfileForm : ProfileForm
  bestParameters : List (String × String)
  candidates : List CandidateRecord
  steps : List AutoStep
deriving DecidableEq

/-! ## Small generic helpers (association lists, dedup, stable sort) -/

/-- First-match lookup in an association list (JS object property read). -/
def lookupRec : List (String × String) → String → Option String
  | [], _ => none
  | (k', v) :: rest, k => if k' = k then some v else lookupRec rest k

/-- JS object-spread assignment `{ ...c, [k]: v }`: updates the binding in
place when the key exists, appends it otherwise. -/
def recAssign (c : List (String × String)) (k v : String) : List (String × String) :=
  match c with
  | [] => [(k, v)]
  | (k', v') :: rest => if k' = k then (k', v) :: rest else (k', v') :: recAssign rest k v

/-- `Array.from(new Set(l))`: deduplicate keeping first occurrences. -/
def dedupFirst {α : Type} [DecidableEq α] (seen : List α) : List α → List α
  | [] => []
  | x :: xs => if x ∈ seen then dedupFirst seen xs else x :: dedupFirst (x :: seen) xs

/-- Stable insertion used to model JS `Array.prototype.sort` (which is
stable): insert before the first element strictly after it. -/
def insertLe {α : Type} (le : α → α → Bool) (a : α) : List α → List α
  | [] => [a]
  | b :: l => if le a b then a :: b :: l else b :: insertLe le a l

/-- Stable sort by a boolean comparison (model of JS stable sort). -/
def sortByLe {α : Type} (le : α → α → Bool) (l : List α) : List α :=
  l.foldr (insertLe le) []

/-- Error-propagating left fold (the sequential `for … of` / `await`
loops of the source: the first thrown error aborts the whole loop). -/
def exFold {σ α : Type} (f : σ → α → Except String σ) : σ → List α → Except String σ
  | s, [] => .ok s
  | s, a :: l =>
    match f s a with
    | .error e => .error e
    | .ok s' => exFold f s' l


/-! ## Variation matrix compiler -/

def parseLine (line : String) : Except String VariationDefinition :=
  match jsSplit line '=' with
  | [] => .error ("Ligne invalide: " ++ line)
  | rawKey :: rest =>
    match rest with
    | [] => .error ("Ligne invalide: " ++ line)
    | rawValues :: _ =>
      if jsIsEmpty rawKey then .error ("Ligne invalide: " ++ line)
      else
        let values := ((jsSplit rawValues ',').map jsTrim).filter (fun v => !(jsIsEmpty v))
        if values.isEmpty then .error ("Aucune valeur specifiee pour " ++ jsTrim rawKey)
        else .ok { key := normalizeKey rawKey, label := jsTrim rawKey, values := values }

def parseVariationInput (raw : String) : Except String (List VariationDefinition) :=
  (((jsSplit raw '\n').map jsTrim).filter (fun l => !(jsIsEmpty l))).mapM parseLine

/-- One `reduce` step of `cartesianProduct`. -/
def cartStep (acc : List (List (String × String))) (d : VariationDefinition) :
    List (List (String × String)) :=
  acc.flatMap (fun combo => d.values.map (fun v => recAssign combo d.key v))

def cartesianProduct (defs : List VariationDefinition) : List (List (String × String)) :=
  if defs.isEmpty then [[]] else defs.foldl cartStep [[]]

/-! ## Profile descriptor builder -/

def OPTION_KEYS : List String :=
  ["temperature", "top_p", "top_k", "repeat_penalty", "max_tokens"]

def SETTING_KEYS : List String :=
  ["llm_model_path", "llm_speculative_model_path", "llm_context_tokens", "llm_n_gpu_layers",
   "llm_speculative_context_tokens", "llm_speculative_n_gpu_layers", "chat_system_prompt"]

def getOption (o : OptionFields) (key : String) : Option String :=
  if key = "temperature" then some o.temperature
  else if key = "top_p" then some o.top_p
  else if key = "top_k" then some o.top_k
  else if key = "repeat_penalty" then some o.repeat_penalty
  else if key = "max_tokens" then some o.max_tokens
  else none

def setOption (o : OptionFields) (key value : String) : OptionFields :=
  if key = "temperature" then { o with temperature := value }
  else if key = "top_p" then { o with top_p := value }
  else if key = "top_k" then { o with top_k := value }
  else if key = "repeat_penalty" then { o with repeat_penalty := value }
  else if key = "max_tokens" then { o with max_tokens := value }
  else o

def getSetting (s : SettingFields) (key : String) : Option String :=
  if key = "llm_model_path" then some s.llm_model_path
  else if key = "llm_speculative_model_path" then some s.llm_speculative_model_path
  else if key = "llm_context_tokens" then some s.llm_context_tokens
  else if key = "llm_n_gpu_layers" then some s.llm_n_gpu_layers
  else if key = "llm_speculative_context_tokens" then some s.llm_speculative_context_tokens
  else if key = "llm_speculative_n_gpu_layers" then some s.llm_speculative_n_gpu_layers
  else if key = "chat_system_prompt" then some s.chat_system_prompt
  else none

def setSetting (s : SettingFields) (key value : String) : SettingFields :=
  if key = "llm_model_path" then { s with llm_model_path := value }
  else if key = "llm_speculative_model_path" then { s with llm_speculative_model_path := value }
  else if key = "llm_context_tokens" then { s with llm_context_tokens := value }
  else if key = "llm_n_gpu_layers" then { s with llm_n_gpu_layers := value }
  else if key = "llm_speculative_context_tokens" then { s with llm_speculative_context_tokens := value }
  else if key = "llm_speculative_n_gpu_layers" then { s with llm_speculative_n_gpu_layers := value }
  else if key = "chat_system_prompt" then { s with chat_system_prompt := value }
  else s

/-- `cloneProfile`: field-by-field copy with a fresh identifier; the
options and settings namespaces are rebuilt (JS object spread), so the
copy shares no mutable state with the original. -/
def cloneProfile (profile : ProfileForm) (freshId : String) : ProfileForm :=
  { id := freshId
    name := profile.name
    description := profile.description
    samples := profile.samples
    speculative := profile.speculative
    options :=
      { temperature := profile.options.temperature
        top_p := profile.options.top_p
        top_k := profile.options.top_k
        repeat_penalty := profile.options.repeat_penalty
        max_tokens := profile.options.max_tokens }
    settings :=
      { llm_model_path := profile.settings.llm_model_path
        llm_speculative_model_path := profile.settings.llm_speculative_model_path
        llm_context_tokens := profile.settings.llm_context_tokens
        llm_n_gpu_layers := profile.settings.llm_n_gpu_layers
        llm_speculative_context_tokens := profile.settings.llm_speculative_context_tokens
        llm_speculative_n_gpu_layers := profile.settings.llm_speculative_n_gpu_layers
        chat_system_prompt := profile.settings.chat_system_prompt } }

/-- One override entry of `applyOverrides` (`Object.entries` body). -/
def applyOverride1 (next : ProfileForm) (entry : String × String) : Except String ProfileForm :=
  let key := normalizeKey entry.1
  let value := jsTrim entry.2
  if jsIsEmpty value then .ok next
  else if key = "speculative" then
    match coerceBoolean value with
    | .error e => .error e
    | .ok b => .ok { next with speculative := b }
  else if key = "samples" then .ok { next with samples := toString (normaliseSamples value) }
  else if key ∈ OPTION_KEYS then .ok { next with options := setOption next.options key value }
  else if key ∈ SETTING_KEYS then .ok { next with settings := setSetting next.settings key value }
  else .error ("Champ inconnu: " ++ entry.1)

/-- `applyOverrides(base, overrides, nameSuffix?)`.  Overrides are an
association list in `Object.entries` order; `freshId` stands in for the
`crypto.randomUUID()` drawn by `cloneProfile`. -/
def applyOverrides (profile : ProfileForm) (overrides : List (String × String))
    (nameSuffix : Option String) (freshId : String) : Except String ProfileForm :=
  let base := cloneProfile profile freshId
  let start :=
    match nameSuffix with
    | some sfx =>
      if jsIsEmpty sfx then base
      else { base with name := (if jsIsEmpty profile.name then "Profil" else profile.name) ++ " " ++ sfx }
    | none => base
  exFold applyOverride1 start overrides

/-! ## Candidate evaluator: statistics -/

def readToken (usage : Option (List (String × JsVal))) (key : String) : ℚ :=
  match usage with
  | none => 0
  | some u =>
    match u.lookup key with
    | some (.num q) => q
    | some (.str s) =>
      match jsNumber s with
      | some q => q
      | none => 0
    | _ => 0

def finiteLatencies (profile : ProfileResult) : List ℚ :=
  (profile.runs.map (fun run => run.latency_ms)).filterMap id

def listMin : List ℚ → ℚ
  | [] => 0
  | x :: xs => xs.foldl min x

def listMax : List ℚ → ℚ
  | [] => 0
  | x :: xs => xs.foldl max x

def computeStats (profile : ProfileResult) : ProfileStats :=
  let latencies := finiteLatencies profile
  let runsCount := latencies.length
  let averageLatency := if runsCount = 0 then 0 else latencies.sum / ratOfNat runsCount
  let varLatency :=
    if 1 < runsCount then
      ((latencies.map (fun v => (v - averageLatency) * (v - averageLatency))).sum) /
        (ratOfNat runsCount - 1)
    else 0
  { averageLatency := averageLatency
    minLatency := listMin latencies
    maxLatency := listMax latencies
    varLatency := varLatency
    averagePromptTokens :=
      if runsCount = 0 then 0
      else (profile.runs.map (fun run => readToken run.usage "prompt_tokens")).sum /
        ratOfNat runsCount
    averageCompletionTokens :=
      if runsCount = 0 then 0
      else (profile.runs.map (fun run => readToken run.usage "completion_tokens")).sum /
        ratOfNat runsCount
    averageTotalTokens :=
      if runsCount = 0 then 0
      else (profile.runs.map (fun run => readToken run.usage "total_tokens")).sum /
        ratOfNat runsCount
    runs := runsCount }

/-! ## Normalized value keys -/

/-- The normalized key of a tried value.  The source computes a string:
the canonical rendering `Number(value).toString()` when the value coerces
to a finite number, the trimmed text otherwise.  Since every canonical
numeric rendering itself coerces to a number, the two ranges are disjoint
and key equality is faithfully modelled by this sum type. -/
inductive ValueKey where
  | num (q : ℚ)
  | txt (s : String)
deriving DecidableEq

def normalizeValueKey (value : String) : ValueKey :=
  match jsNumber value with
  | some q => .num q
  | none => .txt (jsTrim value)

/-- One `forEach` step of `extractParameters`. -/
def extractAssign (profile : ProfileForm) (record : List (String × String)) (key : String) :
    List (String × String) :=
  if key = "speculative" then
    recAssign record key (if profile.speculative then "true" else "false")
  else if key = "samples" then recAssign record key profile.samples
  else if key ∈ OPTION_KEYS then recAssign record key ((getOption profile.options key).getD "")
  else if key ∈ SETTING_KEYS then recAssign record key ((getSetting profile.settings key).getD "")
  else record

def extractParameters (profile : ProfileForm) (keys : List String) : List (String × String) :=
  keys.foldl (extractAssign profile) []

/-! ## Coordinate-descent optimizer -/

/-- The remote benchmark endpoint, indexed by the number of benchmark
calls issued so far in the session.  `.error` models a rejected request
(the JS promise rejects), `.ok` a delivered `ProfileResult` (the first —
and only — profile of the response). -/
abbrev Oracle := ℕ → Except String ProfileResult

deriving instance DecidableEq for Except

structure TuneState where
  calls : ℕ
  bestProfileForm : ProfileForm
  bestResult : ProfileResult
  bestStats : ProfileStats
  steps : List AutoStep
  candidates : List CandidateRecord
deriving DecidableEq

/-- The success flag of one candidate evaluation:
`candidate.runs.length > 0 && Number.isFinite(mean) && mean > 0`.  In the
exact-rational model the mean of a delivered result is always a genuine
rational, so the `Number.isFinite` conjunct is identically true. -/
def successFlagOf (candidate : ProfileResult) : Bool :=
  decide (0 < candidate.runs.length) && decide (0 < (computeStats candidate).averageLatency)

/-- The inner `evaluateCandidate` closure: issue one benchmark call,
derive stats and the success flag, append the `AutoStep`, and record a
`CandidateRecord` when successful.  The best triple is *not* touched here. -/
def evaluateCandidate (oracle : Oracle) (targetPrompt : String) (s : TuneState)
    (candidateProfile : ProfileForm) (parameterLabel valueLabel : String)
    (origin : Option String) :
    Except String (ProfileResult × ProfileStats × Bool × TuneState) :=
  match oracle s.calls with
  | .error e => .error e
  | .ok candidate =>
    let stats := computeStats candidate
    let success := successFlagOf candidate
    let improvement := s.bestStats.averageLatency - stats.averageLatency
    let newStep : AutoStep :=
      { parameter := parameterLabel
        value := match origin with
          | some o => valueLabel ++ " (" ++ o ++ ")"
          | none => valueLabel
        stats := stats
        success := success
        errors := candidate.errors
        improvement := improvement }
    let newCandidates :=
      if success then
        s.candidates ++
          [{ profile := candidate, stats := stats, profileForm := candidateProfile,
             parameter := parameterLabel, value := valueLabel, prompt := targetPrompt }]
      else s.candidates
    .ok (candidate, stats, success,
      { s with calls := s.calls + 1, steps := s.steps ++ [newStep], candidates := newCandidates })

/-- Greedy adoption: replace the best triple exactly when the candidate
was successful and strictly lowers the mean latency; the boolean reports
whether a replacement happened (the `improved` flag of the source). -/
def adoptIfBetter (s : TuneState) (candidate : ProfileResult) (stats : ProfileStats)
    (candidateProfile : ProfileForm) (success : Bool) : TuneState × Bool :=
  if success = true ∧ stats.averageLatency < s.bestStats.averageLatency then
    ({ s with bestStats := stats, bestResult := candidate, bestProfileForm := candidateProfile }, true)
  else (s, false)

/-- One iteration of the discrete sweep over an axis's declared values. -/
def sweep1 (oracle : Oracle) (targetPrompt axisKey label : String)
    (st : TuneState × List ValueKey) (rawValue : String) :
    Except String (TuneState × List ValueKey) :=
  let vk := normalizeValueKey rawValue
  if vk ∈ st.2 then .ok st
  else
    match applyOverrides st.1.bestProfileForm [(axisKey, rawValue)] none (toString st.1.calls) with
    | .error e => .error e
    | .ok candidateProfile =>
      match evaluateCandidate oracle targetPrompt st.1 candidateProfile label rawValue none with
      | .error e => .error e
      | .ok (candidate, stats, success, s') =>
        .ok ((adoptIfBetter s' candidate stats candidateProfile success).1, st.2 ++ [vk])

/-- The numeric value the refinement climbs from: the axis field of the
current best form, parsed leniently, falling back to the speculative flag.
(The source's `Number.isFinite(currentBest)` guard is identically true in
the exact model — every branch below produces a rational.) -/
def currentBestValue (p : ProfileForm) (key : String) : ℚ :=
  match parseFloatLoose ((getOption p.options key).getD "") with
  | some q => q
  | none =>
    match parseFloatLoose ((getSetting p.settings key).getD "") with
    | some q => q
    | none => if p.speculative then 1 else 0

/-- One directional probe of the refinement cascade. -/
def probe1 (oracle : Oracle) (targetPrompt axisKey label : String)
    (initialStep fineStep : ℚ) (direction : ℤ) (st : TuneState × List ValueKey) :
    Except String ((TuneState × List ValueKey) × Bool) :=
  let currentBest := currentBestValue st.1.bestProfileForm axisKey
  let candidateValue := currentBest + ratOfInt direction * fineStep
  if candidateValue < 0 then .ok (st, false)
  else
    let decimals : ℕ := if fineStep < 1 then 3 else 2
    let formatted := toFixedStr candidateValue decimals
    let vk := normalizeValueKey formatted
    if vk ∈ st.2 then .ok (st, false)
    else
      match applyOverrides st.1.bestProfileForm [(axisKey, formatted)] none (toString st.1.calls) with
      | .error e => .error e
      | .ok candidateProfile =>
        let origin : String :=
          if fineStep = initialStep then (if 0 < direction then "voisin +" else "voisin -")
          else "affinage " ++ (if 0 < direction then "+" else "-") ++ toFixedStr fineStep 3
        match evaluateCandidate oracle targetPrompt st.1 candidateProfile label formatted (some origin) with
        | .error e => .error e
        | .ok (candidate, stats, success, s') =>
          let adopted := adoptIfBetter s' candidate stats candidateProfile success
          .ok ((adopted.1, st.2 ++ [vk]), adopted.2)

/-- One iteration of the bounded hill-climb: probe `-1` then, unless it
improved (the `break`), probe `+1`. -/
def climbIter (oracle : Oracle) (targetPrompt axisKey label : String)
    (initialStep fineStep : ℚ) (st : TuneState × List ValueKey) :
    Except String ((TuneState × List ValueKey) × Bool) :=
  match probe1 oracle targetPrompt axisKey label initialStep fineStep (-1) st with
  | .error e => .error e
  | .ok (st1, true) => .ok (st1, true)
  | .ok (st1, false) => probe1 oracle targetPrompt axisKey label initialStep fineStep 1 st1

/-- The `while (improved && guard < 10)` loop, as fuel recursion. -/
def climb (oracle : Oracle) (targetPrompt axisKey label : String)
    (initialStep fineStep : ℚ) : ℕ → (TuneState × List ValueKey) →
    Except String (TuneState × List ValueKey)
  | 0, st => .ok st
  | fuel + 1, st =>
    match climbIter oracle targetPrompt axisKey label initialStep fineStep st with
    | .error e => .error e
    | .ok (st', true) => climb oracle targetPrompt axisKey label initialStep fineStep fuel st'
    | .ok (st', false) => .ok st'

def FINE_STEPS : List ℚ := [1, 1/2, 1/4, 1/10, 1/20, 1/100]

/-- First strictly positive gap between adjacent sorted tested values. -/
def firstAdjDiff : List ℚ → ℚ
  | a :: b :: rest => if 0 < jsAbs (b - a) then jsAbs (b - a) else firstAdjDiff (b :: rest)
  | _ => 0

/-- Step-size inference and refinement cascade for one axis, given the
tested-key set left by the discrete sweep. -/
def refineAxis (oracle : Oracle) (targetPrompt axisKey label : String)
    (st : TuneState × List ValueKey) : Except String (TuneState × List ValueKey) :=
  let numericValues := st.2.filterMap (fun vk =>
    match vk with
    | .num q => some q
    | .txt _ => none)
  if numericValues.isEmpty then .ok st
  else
    let sorted := sortByLe (fun a b => decide (a ≤ b)) numericValues
    let gap := firstAdjDiff sorted
    let initialStep :=
      if gap = 0 then
        let headAbs := jsAbs (sorted.headD 0)
        let baseValue := if headAbs = 0 then 1 else headAbs
        if 1 ≤ baseValue then 1 else fixedRound (baseValue * (1/2)) 3
      else gap
    let stepCandidates :=
      (dedupFirst [] ([initialStep, initialStep / 2] ++ FINE_STEPS)).filter (fun v => decide (0 < v))
    exFold (fun st' fineStep => climb oracle targetPrompt axisKey label initialStep fineStep 10 st')
      st stepCandidates

/-- Full processing of one axis: discrete sweep from an empty tested-key
set, then the refinement cascade sharing the same set. -/
def axisSearch (oracle : Oracle) (targetPrompt : String) (axis : VariationDefinition)
    (s : TuneState) : Except String (TuneState × List ValueKey) :=
  let label := if axis.label.isEmpty then axis.key else axis.label
  match exFold (sweep1 oracle targetPrompt axis.key label) (s, []) axis.values with
  | .error e => .error e
  | .ok st => refineAxis oracle targetPrompt axis.key label st

def runAxis (oracle : Oracle) (targetPrompt : String) (s : TuneState)
    (axis : VariationDefinition) : Except String TuneState :=
  match axisSearch oracle targetPrompt axis s with
  | .error e => .error e
  | .ok st => .ok st.1

def specAxis : VariationDefinition :=
  { key := "speculative", label := "Mode speculatif", values := ["false", "true"] }

/-- Appends the speculative on/off axis when the parsed matrix does not
declare one (`defs.find(item => item.key === 'speculative')`). -/
def ensureSpeculativeAxis (defs : List VariationDefinition) : List VariationDefinition :=
  if defs.any (fun d => d.key == "speculative") then defs else defs ++ [specAxis]

def candidateKey (r : CandidateRecord) : String :=
  r.prompt ++ "-" ++ r.parameter ++ "-" ++ r.value ++ "-" ++ toString (round r.stats.averageLatency)

/-- `forEach` + seen-`Set` dedup of the ranked candidate records. -/
def dedupRecords (seen : List String) : List CandidateRecord → List CandidateRecord
  | [] => []
  | r :: rest =>
    if candidateKey r ∈ seen then dedupRecords seen rest
    else r :: dedupRecords (candidateKey r :: seen) rest

/-- One prompt's full optimization run (`autoTuneSingle`).  `startCalls`
is the number of benchmark calls already issued in this session; the
returned counter lets the multi-prompt loop continue the same oracle. -/
def autoTuneSingle (oracle : Oracle) (generatorMatrix : String) (generatorBase : ProfileForm)
    (startCalls : ℕ) (targetPrompt : String) : Except String (AutoTuneResult × ℕ) :=
  match parseVariationInput generatorMatrix with
  | .error e => .error e
  | .ok defs0 =>
    let defs := ensureSpeculativeAxis defs0
    if defs.isEmpty then .error "Aucun parametre a optimiser"
    else
      let keysForReport := dedupFirst [] (defs.map (fun d => d.key) ++ ["speculative"])
      let baseProfile := cloneProfile generatorBase (toString startCalls)
      match oracle startCalls with
      | .error e => .error e
      | .ok baselineResult =>
        let baselineStats := computeStats baselineResult
        let s0 : TuneState :=
          { calls := startCalls + 1
            bestProfileForm := baseProfile
            bestResult := baselineResult
            bestStats := baselineStats
            steps := []
            candidates :=
              [{ profile := baselineResult, stats := baselineStats, profileForm := baseProfile,
                 parameter := "Baseline", value := "initial", prompt := targetPrompt }] }
        match exFold (runAxis oracle targetPrompt) s0 defs with
        | .error e => .error e
        | .ok sEnd =>
          let sortedCandidates :=
            sortByLe (fun a b => decide (a.stats.averageLatency ≤ b.stats.averageLatency))
              sEnd.candidates
          .ok ({ prompt := targetPrompt
                 summary :=
                   { baseline := { profile := baselineResult, stats := baselineStats }
                     best := { profile := sEnd.bestResult, stats := sEnd.bestStats }
                     steps := sEnd.steps }
                 bestProfileForm := sEnd.bestProfileForm
                 bestParameters := extractParameters sEnd.bestProfileForm keysForReport
                 candidates := dedupRecords [] sortedCandidates
                 steps := sEnd.steps }, sEnd.calls)

/-! ## Multi-prompt aggregator -/

structure RunOutcome where
  runResults : List AutoTuneResult
  combinedSteps : List AutoStep
  combinedCandidates : List CandidateRecord
  bestRun : AutoTuneResult
deriving DecidableEq

def annotateStep (promptValue : String) (step : AutoStep) : AutoStep :=
  { step with parameter := step.parameter ++ " [" ++ promptValue ++ "]" }

def additionalPromptsOf (raw : String) : List String :=
  ((jsSplit raw '\n').map jsTrim).filter (fun l => !(jsIsEmpty l))

/-- The prompt list actually optimized: the primary prompt, then the
additional prompts with occurrences of the primary filtered out.  (Note
that duplicates *among* the additional prompts are kept.) -/
def promptsToRunOf (basePrompt : String) (raw : String) : List String :=
  basePrompt :: (additionalPromptsOf raw).filter (fun entry => !(entry == basePrompt))

/-- One iteration of the sequential multi-prompt loop: run `autoTuneSingle`
for the next prompt, threading the benchmark-call counter. -/
def runPromptsStep (oracle : Oracle) (generatorMatrix : String) (generatorBase : ProfileForm)
    (acc : List AutoTuneResult × ℕ) (promptValue : String) :
    Except String (List AutoTuneResult × ℕ) :=
  match autoTuneSingle oracle generatorMatrix generatorBase acc.2 promptValue with
  | .error e => .error e
  | .ok (res, calls') => .ok (acc.1 ++ [res], calls')

/-- The `reduce` comparator selecting the run with the lowest best mean
latency (first winner kept on ties). -/
def pickBestRun (best current : AutoTuneResult) : AutoTuneResult :=
  if current.summary.best.stats.averageLatency < best.summary.best.stats.averageLatency
  then current else best

/-- `runAutoTune`: one `autoTuneSingle` per prompt (sequential, sharing
the oracle), then journal/candidate concatenation and global-best
selection.  Timestamps and the UI state writes are not modelled. -/
def runAutoTune (oracle : Oracle) (generatorMatrix : String) (generatorBase : ProfileForm)
    (promptRaw autoPromptsRaw : String) : Except String RunOutcome :=
  let basePrompt := jsTrim promptRaw
  if jsIsEmpty basePrompt then .error "Saisissez un prompt avant de lancer le mode auto."
  else
    let promptsToRun := promptsToRunOf basePrompt autoPromptsRaw
    match
      exFold (runPromptsStep oracle generatorMatrix generatorBase)
        (([] : List AutoTuneResult), 0) promptsToRun
    with
    | .error e => .error e
    | .ok (runResults, _) =>
      match runResults with
      | [] => .error "Aucun prompt valide pour le mode auto."
      | first :: rest =>
        let combinedSteps :=
          sortByLe (fun a b => decide (b.improvement ≤ a.improvement))
            (runResults.flatMap (fun entry => entry.steps.map (annotateStep entry.prompt)))
        let combinedCandidates :=
          sortByLe (fun a b => decide (a.stats.averageLatency ≤ b.stats.averageLatency))
            (runResults.flatMap (fun entry => entry.candidates))
        let bestRun := rest.foldl pickBestRun first
        .ok { runResults := runResults
              combinedSteps := combinedSteps
              combinedCandidates := combinedCandidates
              bestRun := bestRun }



/-! ## Error characterization of override application -/

/-- The set of keys `applyOverrides` recognizes. -/
def recognizedKey (k : String) : Bool :=
  (k == "speculative") || (k == "samples") ||
    decide (k ∈ OPTION_KEYS) || decide (k ∈ SETTING_KEYS)

/-- A (already-trimmed) speculative value no truthy/falsy synonym matches. -/
def badBoolValue (v : String) : Bool :=
  !(decide (jsToLower (jsTrim v) ∈ ["1", "true", "oui", "yes", "on"]) ||
    decide (jsToLower (jsTrim v) ∈ ["0", "false", "non", "no", "off"]))

/-- An override entry that makes `applyOverrides` raise: its trimmed value
is non-empty and either the normalized key is unrecognized or it is
`speculative` with an uncoercible value. -/
def badOverrideEntry (entry : String × String) : Bool :=
  !(jsIsEmpty (jsTrim entry.2)) &&
    (!recognizedKey (normalizeKey entry.1) ||
      ((normalizeKey entry.1 == "speculative") && badBoolValue (jsTrim entry.2)))

/-! ## Concrete fixtures used by counterexamples and witnesses -/

def emptyOptionFields : OptionFields := ⟨"", "", "", "", ""⟩

def emptySettingFields : SettingFields := ⟨"", "", "", "", "", "", ""⟩

/-- The default generator base profile of the page (identifier fixed). -/
def baseFormW : ProfileForm :=
  { id := "base", name := "Profil", description := "Base automatique", samples := "1",
    speculative := false,
    options := { emptyOptionFields with temperature := "0.7", top_p := "0.9", max_tokens := "512" },
    settings := emptySettingFields }

def okRunW (q : ℚ) : ProfileRun :=
  { latency_ms := some q, speculative := false, text := none, usage := none }

/-- A fully successful one-sample benchmark response with latency `q`. -/
def okResW (q : ℚ) : ProfileResult :=
  { name := "p", description := none, applied_settings := none, applied_options := none,
    samples := 1, runs := [okRunW q], errors := [] }

/-- A delivered response carrying zero runs and one error string (the
partial-failure shape of the spec scenario). -/
def failResW : ProfileResult :=
  { name := "p", description := none, applied_settings := none, applied_options := none,
    samples := 1, runs := [], errors := ["boom"] }

/-- The `[100, 200, 300]` three-run result of the stats scenario. -/
def resABC : ProfileResult :=
  { name := "p", description := none, applied_settings := none, applied_options := none,
    samples := 3, runs := [okRunW 100, okRunW 200, okRunW 300], errors := [] }

/-- Projection out of `Except` for closed witness statements. -/
def okOr {σ : Type} (e : Except String σ) (dflt : σ) : σ :=
  match e with
  | .ok s => s
  | .error _ => dflt

/-- Oracle whose first call (the baseline) succeeds and every further
call rejects (network failure). -/
def oracleRejW : Oracle :=
  fun n => if n = 0 then .ok (okResW 10) else .error "network"

/-- Oracle: baseline 100 ms, first candidate a zero-run partial failure,
second candidate 90 ms, everything after 95 ms. -/
def oracleHaltW : Oracle :=
  fun n =>
    if n = 0 then .ok (okResW 10)
    else if n = 1 then .ok failResW
    else if n = 2 then .ok (okResW 9)
    else .ok (okResW 12)

/-- Oracle that always delivers a zero-run partial failure. -/
def oracleFailW : Oracle := fun _ => .ok failResW

/-- Oracle that always succeeds at 100 ms. -/
def oracleOkW : Oracle := fun _ => .ok (okResW 10)

def statsW : ProfileStats := computeStats (okResW 10)

/-- A mid-run optimizer state seeded from a 100 ms baseline. -/
def tuneStateW : TuneState :=
  { calls := 1, bestProfileForm := baseFormW, bestResult := okResW 10,
    bestStats := statsW, steps := [], candidates := [] }

def emptyAutoResultW : AutoTuneResult :=
  { prompt := "", summary :=
      { baseline := { profile := failResW, stats := computeStats failResW }
        best := { profile := failResW, stats := computeStats failResW }
        steps := [] }
    bestProfileForm := baseFormW, bestParameters := [], candidates := [], steps := [] }

def emptyRunOutcomeW : RunOutcome :=
  { runResults := [], combinedSteps := [], combinedCandidates := [], bestRun := emptyAutoResultW }

/-! ## Named concrete runs for counterexamples and witnesses -/

/-- Concrete run: baseline 10 ms, a zero-run partial failure, then a 9 ms
candidate (oracle `oracleHaltW`). -/
def tuneHaltW : Except String (AutoTuneResult × ℕ) :=
  autoTuneSingle oracleHaltW "speculative=false,true" baseFormW 0 "pw"

def tuneHaltResW : AutoTuneResult := (okOr tuneHaltW (emptyAutoResultW, 0)).1

/-- Concrete multi-prompt run with duplicated additional prompts. -/
def runFailW : Except String RunOutcome :=
  runAutoTune oracleFailW "speculative=false,true" baseFormW "a" "b\nb"

def runFailOutW : RunOutcome := okOr runFailW emptyRunOutcomeW

/-- Concrete run on a matrix that does not declare the speculative axis. -/
def tuneSpecW : Except String (AutoTuneResult × ℕ) :=
  autoTuneSingle oracleOkW "llm_model_path=a,b" baseFormW 0 "pw"

def tuneSpecResW : AutoTuneResult := (okOr tuneSpecW (emptyAutoResultW, 0)).1

/-- Concrete sweep step on a zero-run response. -/
def sweepFailW : Except String (TuneState × List ValueKey) :=
  sweep1 oracleFailW "pw" "speculative" "Mode speculatif" (tuneStateW, []) "false"

def sweepFailOutW : TuneState × List ValueKey := okOr sweepFailW (tuneStateW, [])

/-- Concrete sweep over a value list containing `0.5` twice (as `0.5` and
`0.50`). -/
def sweepDupW : Except String (TuneState × List ValueKey) :=
  exFold (sweep1 oracleOkW "pw" "temperature" "temperature") (tuneStateW, []) ["0.5", "0.50"]

def sweepDupOutW : TuneState × List ValueKey := okOr sweepDupW (tuneStateW, [])

/-- Concrete full-axis search on the speculative on/off axis. -/
def axisSpecW : Except String (TuneState × List ValueKey) :=
  axisSearch oracleOkW "pw" specAxis tuneStateW

def axisSpecOutW : TuneState × List ValueKey := okOr axisSpecW (tuneStateW, [])

/-- Concrete override application used by the C1 witness. -/
def overrideFailW : Except String ProfileForm :=
  applyOverrides tuneStateW.bestProfileForm [("speculative", "false")] none
    (toString tuneStateW.calls)

def overrideFailFormW : ProfileForm := okOr overrideFailW baseFormW

/-! # Helper lemmas -/

theorem exFold_nil {σ α : Type} (f : σ → α → Except String σ) (s : σ) :
    exFold f s [] = .ok s := rfl

theorem exFold_cons {σ α : Type} (f : σ → α → Except String σ) (s : σ) (a : α) (l : List α) :
    exFold f s (a :: l) =
      match f s a with
      | .error e => .error e
      | .ok s' => exFold f s' l := rfl

/-- An invariant preserved by each `.ok` step of `f` is preserved by the
whole error-propagating fold. -/
theorem exFold_rel {σ α : Type} (R : σ → σ → Prop) (f : σ → α → Except String σ)
    (hrefl : ∀ s, R s s) (htrans : ∀ a b c, R a b → R b c → R a c)
    (hstep : ∀ s a s', f s a = .ok s' → R s s') :
    ∀ (l : List α) (s s' : σ), exFold f s l = .ok s' → R s s' := by
  intro l
  induction l with
  | nil =>
    intro s s' h
    rw [exFold_nil] at h
    cases h
    exact hrefl s
  | cons a l ih =>
    intro s s' h
    rw [exFold_cons] at h
    cases hfa : f s a with
    | error e => rw [hfa] at h; cases h
    | ok s1 =>
      rw [hfa] at h
      exact htrans _ _ _ (hstep s a s1 hfa) (ih s1 s' h)

theorem mem_insertLe {α : Type} (le : α → α → Bool) (a x : α) (l : List α) :
    x ∈ insertLe le a l ↔ x = a ∨ x ∈ l := by
  induction l with
  | nil => simp [insertLe]
  | cons b l ih =>
    simp only [insertLe]
    split
    · simp
    · simp only [List.mem_cons, ih]
      tauto

theorem mem_sortByLe {α : Type} (le : α → α → Bool) (x : α) (l : List α) :
    x ∈ sortByLe le l ↔ x ∈ l := by
  induction l with
  | nil => simp [sortByLe]
  | cons a l ih =>
    show x ∈ insertLe le a (sortByLe le l) ↔ _
    rw [mem_insertLe]
    simp [ih]

theorem mem_dedupFirst {α : Type} [DecidableEq α] (seen l : List α) (x : α) :
    x ∈ dedupFirst seen l ↔ x ∈ l ∧ x ∉ seen := by
  induction l generalizing seen with
  | nil => simp [dedupFirst]
  | cons a l ih =>
    simp only [dedupFirst]
    by_cases ha : a ∈ seen
    · rw [if_pos ha, ih]
      simp only [List.mem_cons]
      constructor
      · rintro ⟨hx, hn⟩
        exact ⟨Or.inr hx, hn⟩
      · rintro ⟨hx | hx, hn⟩
        · subst hx
          exact absurd ha hn
        · exact ⟨hx, hn⟩
    · rw [if_neg ha]
      simp only [List.mem_cons, ih (a :: seen)]
      constructor
      · rintro (rfl | ⟨hx, hn⟩)
        · exact ⟨Or.inl rfl, ha⟩
        · push_neg at hn
          exact ⟨Or.inr hx, hn.2⟩
      · rintro ⟨rfl | hx, hn⟩
        · exact Or.inl rfl
        · by_cases hxa : x = a
          · exact Or.inl hxa
          · refine Or.inr ⟨hx, ?_⟩
            push_neg
            exact ⟨hxa, hn⟩

theorem lookupRec_recAssign_self (c : List (String × String)) (k v : String) :
    lookupRec (recAssign c k v) k = some v := by
  induction c with
  | nil => simp [recAssign, lookupRec]
  | cons p c ih =>
    obtain ⟨k', v'⟩ := p
    simp only [recAssign]
    by_cases h : k' = k
    · rw [if_pos h]
      simp [lookupRec, h]
    · rw [if_neg h]
      simp [lookupRec, h, ih]

theorem lookupRec_recAssign_ne (c : List (String × String)) (k v k' : String) (h : k' ≠ k) :
    lookupRec (recAssign c k v) k' = lookupRec c k' := by
  induction c with
  | nil =>
    simp only [recAssign, lookupRec]
    rw [if_neg (fun hh : k = k' => h hh.symm)]
  | cons p c ih =>
    obtain ⟨k0, v0⟩ := p
    simp only [recAssign]
    by_cases h0 : k0 = k
    · rw [if_pos h0]
      simp only [lookupRec]
      have hne : ¬ k0 = k' := fun hh => h (hh ▸ h0)
      rw [if_neg hne, if_neg hne]
    · rw [if_neg h0]
      simp only [lookupRec]
      by_cases h1 : k0 = k'
      · rw [if_pos h1, if_pos h1]
      · rw [if_neg h1, if_neg h1]
        exact ih

theorem lookupRec_eq_none (c : List (String × String)) (k : String)
    (h : k ∉ c.map Prod.fst) : lookupRec c k = none := by
  induction c with
  | nil => rfl
  | cons p c ih =>
    obtain ⟨k', v'⟩ := p
    simp only [List.map_cons, List.mem_cons] at h
    push_neg at h
    simp only [lookupRec]
    rw [if_neg (fun hh : k' = k => h.1 hh.symm)]
    exact ih h.2

theorem recAssign_eq_append (c : List (String × String)) (k v : String)
    (h : k ∉ c.map Prod.fst) : recAssign c k v = c ++ [(k, v)] := by
  induction c with
  | nil => rfl
  | cons p c ih =>
    obtain ⟨k', v'⟩ := p
    simp only [List.map_cons, List.mem_cons] at h
    push_neg at h
    simp only [recAssign]
    rw [if_neg (fun hh : k' = k => h.1 hh.symm)]
    simp [ih h.2]

/-! # C5: cartesian product expansion -/

theorem length_flatMap_const {α β : Type} (l : List α) (f : α → List β) (n : ℕ)
    (h : ∀ a ∈ l, (f a).length = n) : (l.flatMap f).length = l.length * n := by
  induction l with
  | nil => simp
  | cons a l ih =>
    simp only [List.flatMap_cons, List.length_append, List.length_cons]
    rw [h a (by simp), ih (fun b hb => h b (by simp [hb])), Nat.succ_mul]
    omega

theorem cartStep_length (acc : List (List (String × String))) (d : VariationDefinition) :
    (cartStep acc d).length = acc.length * d.values.length := by
  unfold cartStep
  exact length_flatMap_const _ _ _ (fun c _ => by simp)

theorem cartesianProduct_snoc (defs : List VariationDefinition) (d : VariationDefinition) :
    cartesianProduct (defs ++ [d]) = cartStep (cartesianProduct defs) d := by
  unfold cartesianProduct
  cases defs with
  | nil => rfl
  | cons a l => simp [List.foldl_append]

theorem cartesianProduct_length (defs : List VariationDefinition) :
    (cartesianProduct defs).length = (defs.map (fun d => d.values.length)).prod := by
  induction defs using List.reverseRecOn with
  | nil => rfl
  | append_singleton defs d ih =>
    rw [cartesianProduct_snoc, cartStep_length, ih]
    simp

theorem cartesianProduct_keys (defs : List VariationDefinition)
    (hk : (defs.map (fun d => d.key)).Nodup) :
    ∀ c ∈ cartesianProduct defs, c.map Prod.fst = defs.map (fun d => d.key) := by
  induction defs using List.reverseRecOn with
  | nil =>
    intro c hc
    have hcp : cartesianProduct [] = [[]] := rfl
    rw [hcp, List.mem_singleton] at hc
    subst hc
    rfl
  | append_singleton defs d ih =>
    intro c hc
    rw [cartesianProduct_snoc] at hc
    unfold cartStep at hc
    rw [List.mem_flatMap] at hc
    obtain ⟨c0, hc0, hc⟩ := hc
    rw [List.mem_map] at hc
    obtain ⟨v, _, rfl⟩ := hc
    rw [List.map_append] at hk
    have hk1 : (defs.map (fun d => d.key)).Nodup := (List.nodup_append.mp hk).1
    have hk2 : d.key ∉ defs.map (fun d => d.key) := by
      intro hmem
      exact (List.nodup_append.mp hk).2.2 hmem (by simp)
    have hkeys := ih hk1 c0 hc0
    rw [recAssign_eq_append c0 d.key v (by rw [hkeys]; exact hk2)]
    simp [hkeys]

theorem cartesianProduct_nodup (defs : List VariationDefinition)
    (hk : (defs.map (fun d => d.key)).Nodup) (hv : ∀ d ∈ defs, d.values.Nodup) :
    (cartesianProduct defs).Nodup := by
  induction defs using List.reverseRecOn with
  | nil => simp [cartesianProduct]
  | append_singleton defs d ih =>
    rw [cartesianProduct_snoc]
    unfold cartStep
    rw [List.map_append] at hk
    have hk1 : (defs.map (fun d => d.key)).Nodup := (List.nodup_append.mp hk).1
    have hk2 : d.key ∉ defs.map (fun d => d.key) := by
      intro hmem
      exact (List.nodup_append.mp hk).2.2 hmem (by simp)
    have hnd := ih hk1 (fun d' hd' => hv d' (by simp [hd']))
    rw [List.nodup_flatMap]
    constructor
    · intro c0 hc0
      refine List.Nodup.map ?_ (hv d (by simp))
      intro v1 v2 hEq
      have := congrArg (fun c => lookupRec c d.key) hEq
      simpa [lookupRec_recAssign_self] using this
    · refine List.Pairwise.imp_of_mem ?_ hnd
      intro c1 c2 hm1 hm2 hne
      have h1 := cartesianProduct_keys defs hk1 c1 hm1
      have h2 := cartesianProduct_keys defs hk1 c2 hm2
      simp only [Function.onFun]
      intro x hx1 hx2
      rw [List.mem_map] at hx1 hx2
      obtain ⟨v1, _, rfl⟩ := hx1
      obtain ⟨v2, _, hx⟩ := hx2
      rw [recAssign_eq_append c1 d.key v1 (by rw [h1]; exact hk2),
          recAssign_eq_append c2 d.key v2 (by rw [h2]; exact hk2)] at hx
      exact hne (List.append_inj' hx.symm rfl).1

theorem eq_of_lookupRec_eq (c1 c2 : List (String × String))
    (hkeys : c1.map Prod.fst = c2.map Prod.fst) (hnd : (c1.map Prod.fst).Nodup)
    (h : ∀ k, lookupRec c1 k = lookupRec c2 k) : c1 = c2 := by
  induction c1 generalizing c2 with
  | nil =>
    cases c2 with
    | nil => rfl
    | cons q c2 => simp at hkeys
  | cons p c1 ih =>
    cases c2 with
    | nil => simp at hkeys
    | cons q c2 =>
      obtain ⟨k, v1⟩ := p
      obtain ⟨k2, v2⟩ := q
      simp only [List.map_cons, List.cons.injEq] at hkeys
      obtain ⟨hk, hkeys'⟩ := hkeys
      subst hk
      have hv := h k
      simp only [lookupRec, if_pos rfl] at hv
      cases hv
      simp only [List.map_cons] at hnd
      have hknotin := (List.nodup_cons.mp hnd).1
      have hnd' := (List.nodup_cons.mp hnd).2
      refine congrArg _ (ih c2 hkeys' hnd' ?_)
      intro k'
      by_cases hk' : k' = k
      · subst hk'
        rw [lookupRec_eq_none c1 k' hknotin,
            lookupRec_eq_none c2 k' (by rw [← hkeys']; exact hknotin)]
      · have hlk := h k'
        simp only [lookupRec] at hlk
        rw [if_neg (fun hh : k = k' => hk' hh.symm),
            if_neg (fun hh : k = k' => hk' hh.symm)] at hlk
        exact hlk

/-- **C5** (amended): `cartesianProduct` of the empty axis list is one
empty combination; the expansion folds the axes left-to-right in a stable
order determined solely by the input (the snoc characterization); the
number of combinations is exactly the product of the value-list lengths;
and — provided the axis keys are pairwise distinct and each axis's value
list has no duplicates — any two distinct combinations differ as
key-to-value mappings. -/
theorem C5_theorem :
    cartesianProduct [] = [[]] ∧
    (∀ (defs : List VariationDefinition) (d : VariationDefinition),
      cartesianProduct (defs ++ [d]) = cartStep (cartesianProduct defs) d) ∧
    (∀ defs : List VariationDefinition,
      (cartesianProduct defs).length = (defs.map (fun d => d.values.length)).prod) ∧
    (∀ defs : List VariationDefinition,
      (defs.map (fun d => d.key)).Nodup → (∀ d ∈ defs, d.values.Nodup) →
      (cartesianProduct defs).Pairwise (fun c1 c2 => ∃ k, lookupRec c1 k ≠ lookupRec c2 k)) := by
  refine ⟨rfl, cartesianProduct_snoc, cartesianProduct_length, ?_⟩
  intro defs hk hv
  have hnd := cartesianProduct_nodup defs hk hv
  refine List.Pairwise.imp_of_mem ?_ hnd
  intro c1 c2 hm1 hm2 hne
  by_contra hall
  push_neg at hall
  refine hne (eq_of_lookupRec_eq c1 c2 ?_ ?_ hall)
  · rw [cartesianProduct_keys defs hk c1 hm1, cartesianProduct_keys defs hk c2 hm2]
  · rw [cartesianProduct_keys defs hk c1 hm1]
    exact hk

/-- **C5 counterexample**: a single axis whose declared value list repeats
a value (`a=1,1`, accepted by the compiler) yields the claimed number of
combinations, but two of them are the *same* key-to-value mapping, so the
claim "each combination a distinct key-to-value mapping", quantified over
every axis list, is false. -/
theorem C5_counterexample :
    (cartesianProduct [⟨"a", "a", ["1", "1"]⟩]).length = 2 ∧
    ¬ (cartesianProduct [⟨"a", "a", ["1", "1"]⟩]).Pairwise
        (fun c1 c2 => ∃ k, lookupRec c1 k ≠ lookupRec c2 k) := by
  constructor
  · rfl
  · intro h
    have he : cartesianProduct [⟨"a", "a", ["1", "1"]⟩] = [[("a", "1")], [("a", "1")]] := rfl
    rw [he] at h
    rcases List.pairwise_cons.mp h with ⟨h1, _⟩
    rcases h1 [("a", "1")] (by simp) with ⟨k, hk⟩
    exact hk rfl

/-- Witness for C5 at a concrete two-axis matrix with distinct keys and
duplicate-free values. -/
theorem C5_witness :
    (([⟨"temperature", "temperature", ["0.6", "0.8"]⟩,
       ⟨"max_tokens", "max_tokens", ["256"]⟩] :
        List VariationDefinition).map (fun d => d.key)).Nodup ∧
    (cartesianProduct [⟨"temperature", "temperature", ["0.6", "0.8"]⟩,
       ⟨"max_tokens", "max_tokens", ["256"]⟩]).Pairwise
      (fun c1 c2 => ∃ k, lookupRec c1 k ≠ lookupRec c2 k) :=
  ⟨by decide, C5_theorem.2.2.2 _ (by decide) (by decide)⟩

/-! # C6: override application with no overrides -/

/-- **C6** (amended): `applyOverrides(p, {})` with no name suffix returns
a copy that agrees with `p` on every attribute *except* the identifier,
which is freshly generated by `cloneProfile`; all nested namespaces are
rebuilt, and in this pure embedding the argument `p` is untouched. -/
theorem C6_theorem (p : ProfileForm) (freshId : String) :
    applyOverrides p [] none freshId = .ok { p with id := freshId } := rfl

/-- **C6 counterexample**: at a concrete profile the result of
`applyOverrides(p, {})` is *not* value-equal to `p` in every attribute:
the identifier attribute is regenerated, so the copy differs from `p`. -/
theorem C6_counterexample :
    applyOverrides baseFormW [] none "fresh" = .ok { baseFormW with id := "fresh" } ∧
    ({ baseFormW with id := "fresh" } : ProfileForm) ≠ baseFormW := by
  exact ⟨rfl, by decide⟩

/-! # C8: statistics -/

theorem computeStats_averageLatency (r : ProfileResult) :
    (computeStats r).averageLatency =
      if (finiteLatencies r).length = 0 then 0
      else (finiteLatencies r).sum / ratOfNat (finiteLatencies r).length := rfl

theorem computeStats_minLatency (r : ProfileResult) :
    (computeStats r).minLatency = listMin (finiteLatencies r) := rfl

theorem computeStats_maxLatency (r : ProfileResult) :
    (computeStats r).maxLatency = listMax (finiteLatencies r) := rfl

theorem computeStats_runs (r : ProfileResult) :
    (computeStats r).runs = (finiteLatencies r).length := rfl

theorem computeStats_varLatency (r : ProfileResult) :
    (computeStats r).varLatency =
      if 1 < (finiteLatencies r).length then
        ((finiteLatencies r).map
            (fun v => (v - (computeStats r).averageLatency) *
              (v - (computeStats r).averageLatency))).sum /
          (ratOfNat (finiteLatencies r).length - 1)
      else 0 := rfl

theorem foldl_min_mem : ∀ (l : List ℚ) (x : ℚ), l.foldl min x ∈ x :: l := by
  intro l
  induction l with
  | nil => intro x; simp
  | cons a l ih =>
    intro x
    simp only [List.foldl_cons]
    have h := ih (min x a)
    rcases List.mem_cons.mp h with h | h
    · rcases min_choice x a with hxa | hxa
      · rw [h, hxa]
        exact List.mem_cons_self _ _
      · rw [h, hxa]
        simp
    · simp [h]

theorem foldl_min_le : ∀ (l : List ℚ) (x : ℚ), ∀ y ∈ x :: l, l.foldl min x ≤ y := by
  intro l
  induction l with
  | nil =>
    intro x y hy
    simp only [List.mem_singleton] at hy
    simp [hy]
  | cons a l ih =>
    intro x y hy
    simp only [List.foldl_cons]
    rcases List.mem_cons.mp hy with h1 | hy2
    · rw [h1]
      exact le_trans (ih (min x a) (min x a) (by simp)) (min_le_left x a)
    · rcases List.mem_cons.mp hy2 with h2 | hy3
      · rw [h2]
        exact le_trans (ih (min x a) (min x a) (by simp)) (min_le_right x a)
      · exact ih (min x a) y (by simp [hy3])

theorem foldl_max_mem : ∀ (l : List ℚ) (x : ℚ), l.foldl max x ∈ x :: l := by
  intro l
  induction l with
  | nil => intro x; simp
  | cons a l ih =>
    intro x
    simp only [List.foldl_cons]
    have h := ih (max x a)
    rcases List.mem_cons.mp h with h | h
    · rcases max_choice x a with hxa | hxa
      · rw [h, hxa]
        exact List.mem_cons_self _ _
      · rw [h, hxa]
        simp
    · simp [h]

theorem foldl_le_max : ∀ (l : List ℚ) (x : ℚ), ∀ y ∈ x :: l, y ≤ l.foldl max x := by
  intro l
  induction l with
  | nil =>
    intro x y hy
    simp only [List.mem_singleton] at hy
    simp [hy]
  | cons a l ih =>
    intro x y hy
    simp only [List.foldl_cons]
    rcases List.mem_cons.mp hy with h1 | hy2
    · rw [h1]
      exact le_trans (le_max_left x a) (ih (max x a) (max x a) (by simp))
    · rcases List.mem_cons.mp hy2 with h2 | hy3
      · rw [h2]
        exact le_trans (le_max_right x a) (ih (max x a) (max x a) (by simp))
      · exact ih (max x a) y (by simp [hy3])

theorem ratOfNat_cast (n : ℕ) : ratOfNat n = (n : ℚ) := by
  unfold ratOfNat
  rw [Rat.mkRat_one]
  simp

/-- **C8**: `computeStats` returns the arithmetic mean, the minimum and
the maximum of the runs' finite latencies, and a variance computed with
the `n−1` (sample) divisor when more than one finite run exists and zero
otherwise; on latencies `[100, 200, 300]` it yields mean 200, min 100,
max 300 and standard deviation 100, and on a single run the standard
deviation is 0. -/
theorem C8_theorem :
    (∀ r : ProfileResult, finiteLatencies r ≠ [] →
      (computeStats r).averageLatency * ((finiteLatencies r).length : ℚ) =
          (finiteLatencies r).sum ∧
      (computeStats r).minLatency ∈ finiteLatencies r ∧
      (∀ v ∈ finiteLatencies r, (computeStats r).minLatency ≤ v) ∧
      (computeStats r).maxLatency ∈ finiteLatencies r ∧
      (∀ v ∈ finiteLatencies r, v ≤ (computeStats r).maxLatency)) ∧
    (∀ r : ProfileResult, 1 < (computeStats r).runs →
      (computeStats r).varLatency =
        ((finiteLatencies r).map (fun v => (v - (computeStats r).averageLatency) ^ 2)).sum /
          (((computeStats r).runs : ℚ) - 1)) ∧
    (∀ r : ProfileResult, (computeStats r).runs ≤ 1 → (computeStats r).varLatency = 0) ∧
    ((computeStats resABC).averageLatency = 200 ∧ (computeStats resABC).minLatency = 100 ∧
      (computeStats resABC).maxLatency = 300 ∧ (computeStats resABC).stdLatency = 100) ∧
    (∀ x : ℚ, (computeStats (okResW x)).stdLatency = 0) := by
  have hfl : finiteLatencies resABC = [100, 200, 300] := rfl
  have havg : (computeStats resABC).averageLatency = 200 := by
    rw [computeStats_averageLatency, hfl]
    norm_num [ratOfNat_cast]
  refine ⟨?_, ?_, ?_, ⟨havg, ?_, ?_, ?_⟩, ?_⟩
  · intro r hne
    have hlen : (finiteLatencies r).length ≠ 0 := fun h => hne (List.length_eq_zero.mp h)
    refine ⟨?_, ?_, ?_, ?_, ?_⟩
    · rw [computeStats_averageLatency, if_neg hlen, ratOfNat_cast]
      field_simp
    · rw [computeStats_minLatency]
      cases hfl : finiteLatencies r with
      | nil => exact absurd hfl hne
      | cons a l => simpa [listMin] using foldl_min_mem l a
    · intro v hv
      rw [computeStats_minLatency]
      cases hfl : finiteLatencies r with
      | nil => exact absurd hfl hne
      | cons a l =>
        rw [hfl] at hv
        simpa [listMin] using foldl_min_le l a v hv
    · rw [computeStats_maxLatency]
      cases hfl : finiteLatencies r with
      | nil => exact absurd hfl hne
      | cons a l => simpa [listMax] using foldl_max_mem l a
    · intro v hv
      rw [computeStats_maxLatency]
      cases hfl : finiteLatencies r with
      | nil => exact absurd hfl hne
      | cons a l =>
        rw [hfl] at hv
        simpa [listMax] using foldl_le_max l a v hv
  · intro r hr
    rw [computeStats_runs] at hr
    rw [computeStats_varLatency, if_pos hr, computeStats_runs, ratOfNat_cast]
    simp only [pow_two]
  · intro r hr
    rw [computeStats_runs] at hr
    rw [computeStats_varLatency, if_neg (by omega)]
  · rw [computeStats_minLatency, hfl]
    norm_num [listMin, min_def]
  · rw [computeStats_maxLatency, hfl]
    norm_num [listMax, max_def]
  · show Real.sqrt _ = 100
    have hv : (computeStats resABC).varLatency = 10000 := by
      simp only [computeStats_varLatency, hfl, havg]
      norm_num [ratOfNat_cast]
    rw [hv, show ((10000 : ℚ) : ℝ) = (100 : ℝ) ^ 2 by norm_num]
    exact Real.sqrt_sq (by norm_num)
  · intro x
    show Real.sqrt _ = 0
    have hv : (computeStats (okResW x)).varLatency = 0 := rfl
    rw [hv]
    simp

/-- Witness for C8 at the `[100, 200, 300]` result. -/
theorem C8_witness :
    (finiteLatencies resABC ≠ [] ∧ 1 < (computeStats resABC).runs) ∧
    ((computeStats resABC).minLatency ∈ finiteLatencies resABC ∧
      (computeStats resABC).varLatency =
        ((finiteLatencies resABC).map
            (fun v => (v - (computeStats resABC).averageLatency) ^ 2)).sum /
          (((computeStats resABC).runs : ℚ) - 1)) :=
  ⟨⟨by decide, by decide⟩,
    ⟨(C8_theorem.1 resABC (by decide)).2.1, C8_theorem.2.1 resABC (by decide)⟩⟩

/-! # C9: override input errors -/

theorem applyOverride1_error (next : ProfileForm) (entry : String × String) :
    (∃ e, applyOverride1 next entry = .error e) ↔ badOverrideEntry entry = true := by
  simp only [applyOverride1]
  by_cases h0 : jsIsEmpty (jsTrim entry.2) = true
  · rw [if_pos h0]
    simp [badOverrideEntry, h0]
  · rw [if_neg h0]
    by_cases h1 : normalizeKey entry.1 = "speculative"
    · rw [if_pos h1]
      simp only [coerceBoolean]
      by_cases h2 : jsToLower (jsTrim (jsTrim entry.2)) ∈ ["1", "true", "oui", "yes", "on"]
      · rw [if_pos h2]
        simp [badOverrideEntry, badBoolValue, recognizedKey, h0, h1, h2]
      · rw [if_neg h2]
        by_cases h3 : jsToLower (jsTrim (jsTrim entry.2)) ∈ ["0", "false", "non", "no", "off"]
        · rw [if_pos h3]
          simp [badOverrideEntry, badBoolValue, recognizedKey, h0, h1, h2, h3]
        · rw [if_neg h3]
          simp [badOverrideEntry, badBoolValue, recognizedKey, h0, h1, h2, h3]
    · rw [if_neg h1]
      by_cases h4 : normalizeKey entry.1 = "samples"
      · rw [if_pos h4]
        simp [badOverrideEntry, recognizedKey, h0, h1, h4]
      · rw [if_neg h4]
        by_cases h5 : normalizeKey entry.1 ∈ OPTION_KEYS
        · rw [if_pos h5]
          simp [badOverrideEntry, recognizedKey, h0, h1, h4, h5]
        · rw [if_neg h5]
          by_cases h6 : normalizeKey entry.1 ∈ SETTING_KEYS
          · rw [if_pos h6]
            simp [badOverrideEntry, recognizedKey, h0, h1, h4, h5, h6]
          · rw [if_neg h6]
            simp [badOverrideEntry, recognizedKey, h0, h1, h4, h5, h6]

theorem exFold_applyOverride1_error :
    ∀ (ov : List (String × String)) (next : ProfileForm),
      (∃ e, exFold applyOverride1 next ov = .error e) ↔ ov.any badOverrideEntry = true := by
  intro ov
  induction ov with
  | nil =>
    intro next
    simp [exFold_nil]
  | cons a l ih =>
    intro next
    rw [exFold_cons]
    cases hfa : applyOverride1 next a with
    | error e =>
      have hbad : badOverrideEntry a = true := (applyOverride1_error next a).mp ⟨e, hfa⟩
      simp [hbad]
    | ok next' =>
      have hgood : badOverrideEntry a = false := by
        by_contra h
        rcases (applyOverride1_error next a).mpr (by revert h; cases badOverrideEntry a <;> simp)
          with ⟨e, he⟩
        rw [hfa] at he
        cases he
      simp [hgood, ih next']

/-- **C9** (amended): `applyOverrides` raises exactly when some override
entry has a *non-empty* trimmed value and either an unrecognized
normalized key or the key `speculative` with a value no truthy/falsy
synonym matches; entries whose trimmed value is empty are skipped without
error.  The error comes out of the pure, synchronous override application:
when it fires inside the candidate pipeline, the benchmark oracle is never
consulted for that candidate (the sweep step returns the same error for
every oracle). -/
theorem C9_theorem :
    (∀ (p : ProfileForm) (overrides : List (String × String)) (freshId : String),
      (∃ e, applyOverrides p overrides none freshId = .error e) ↔
        overrides.any badOverrideEntry = true) ∧
    (∀ (oracle : Oracle) (targetPrompt axisKey label rawValue : String)
       (st : TuneState × List ValueKey) (e : String),
      normalizeValueKey rawValue ∉ st.2 →
      applyOverrides st.1.bestProfileForm [(axisKey, rawValue)] none (toString st.1.calls) =
        .error e →
      sweep1 oracle targetPrompt axisKey label st rawValue = .error e) := by
  constructor
  · intro p ov freshId
    exact exFold_applyOverride1_error ov (cloneProfile p freshId)
  · intro oracle targetPrompt axisKey label rawValue st e hfresh herr
    simp only [sweep1]
    rw [if_neg hfresh, herr]

/-- **C9 counterexample**: an override entry with the unrecognized key
`bogus` — and likewise a `speculative` entry with a non-boolean value —
raises *no* error when its trimmed value is empty: the entry is skipped,
refuting "raises for every override entry whose normalized key is not
among the recognized fields". -/
theorem C9_counterexample :
    applyOverrides baseFormW [("bogus", "")] none "x" = .ok (cloneProfile baseFormW "x") ∧
    applyOverrides baseFormW [("speculative", " ")] none "x" =
      .ok (cloneProfile baseFormW "x") :=
  ⟨rfl, rfl⟩

/-- Witness for C9 at a non-empty unrecognized entry. -/
theorem C9_witness :
    ([("bogus", "1")].any badOverrideEntry = true) ∧
    (∃ e, applyOverrides baseFormW [("bogus", "1")] none "x" = .error e) :=
  ⟨by decide, (C9_theorem.1 baseFormW [("bogus", "1")] "x").mpr (by decide)⟩

/-! # Execution characterization of the optimizer steps -/

theorem evaluateCandidate_error (oracle : Oracle) (targetPrompt : String) (s : TuneState)
    (cp : ProfileForm) (lbl v : String) (origin : Option String) (e : String)
    (h : oracle s.calls = .error e) :
    evaluateCandidate oracle targetPrompt s cp lbl v origin = .error e := by
  unfold evaluateCandidate
  rw [h]

theorem evaluateCandidate_ok (oracle : Oracle) (targetPrompt : String) (s : TuneState)
    (cp : ProfileForm) (lbl v : String) (origin : Option String) (r : ProfileResult)
    (h : oracle s.calls = .ok r) :
    evaluateCandidate oracle targetPrompt s cp lbl v origin =
      .ok (r, computeStats r, successFlagOf r,
        { s with
          calls := s.calls + 1
          steps := s.steps ++
            [{ parameter := lbl
               value := (match origin with
                 | some o => v ++ " (" ++ o ++ ")"
                 | none => v)
               stats := computeStats r
               success := successFlagOf r
               errors := r.errors
               improvement := s.bestStats.averageLatency - (computeStats r).averageLatency }]
          candidates :=
            if successFlagOf r then
              s.candidates ++
                [{ profile := r, stats := computeStats r, profileForm := cp,
                   parameter := lbl, value := v, prompt := targetPrompt }]
            else s.candidates }) := by
  unfold evaluateCandidate
  rw [h]

/-- Case analysis of greedy adoption. -/
theorem adoptIfBetter_cases (s : TuneState) (cand : ProfileResult) (stats : ProfileStats)
    (cp : ProfileForm) (success : Bool) :
    (success = true ∧ stats.averageLatency < s.bestStats.averageLatency ∧
      adoptIfBetter s cand stats cp success =
        ({ s with bestStats := stats, bestResult := cand, bestProfileForm := cp }, true)) ∨
    (¬(success = true ∧ stats.averageLatency < s.bestStats.averageLatency) ∧
      adoptIfBetter s cand stats cp success = (s, false)) := by
  unfold adoptIfBetter
  by_cases hc : success = true ∧ stats.averageLatency < s.bestStats.averageLatency
  · exact Or.inl ⟨hc.1, hc.2, if_pos hc⟩
  · exact Or.inr ⟨hc, if_neg hc⟩

/-- Full case analysis of one discrete-sweep step that returned `.ok`. -/
theorem sweep1_cases (oracle : Oracle) (tp ak lbl v : String)
    (st out : TuneState × List ValueKey)
    (h : sweep1 oracle tp ak lbl st v = .ok out) :
    out = st ∨
    ∃ (cp : ProfileForm) (r : ProfileResult),
      normalizeValueKey v ∉ st.2 ∧
      applyOverrides st.1.bestProfileForm [(ak, v)] none (toString st.1.calls) = .ok cp ∧
      oracle st.1.calls = .ok r ∧
      out.2 = st.2 ++ [normalizeValueKey v] ∧
      out.1.calls = st.1.calls + 1 ∧
      (∃ stp : AutoStep, out.1.steps = st.1.steps ++ [stp] ∧
        stp.parameter = lbl ∧ stp.success = successFlagOf r ∧ stp.errors = r.errors ∧
        stp.stats = computeStats r) ∧
      (if successFlagOf r then
          out.1.candidates = st.1.candidates ++
            [{ profile := r, stats := computeStats r, profileForm := cp,
               parameter := lbl, value := v, prompt := tp }]
        else out.1.candidates = st.1.candidates) ∧
      ((successFlagOf r = true ∧
          (computeStats r).averageLatency < st.1.bestStats.averageLatency ∧
          out.1.bestStats = computeStats r ∧ out.1.bestResult = r ∧
          out.1.bestProfileForm = cp) ∨
        (¬(successFlagOf r = true ∧
            (computeStats r).averageLatency < st.1.bestStats.averageLatency) ∧
          out.1.bestStats = st.1.bestStats ∧ out.1.bestResult = st.1.bestResult ∧
          out.1.bestProfileForm = st.1.bestProfileForm)) := by
  unfold sweep1 at h
  by_cases hmem : normalizeValueKey v ∈ st.2
  · rw [if_pos hmem] at h
    cases h
    exact Or.inl rfl
  · rw [if_neg hmem] at h
    cases hap : applyOverrides st.1.bestProfileForm [(ak, v)] none (toString st.1.calls) with
    | error e =>
      rw [hap] at h
      cases h
    | ok cp =>
      rw [hap] at h
      dsimp only at h
      cases hor : oracle st.1.calls with
      | error e =>
        rw [evaluateCandidate_error oracle tp st.1 cp lbl v none e hor] at h
        cases h
      | ok r =>
        rw [evaluateCandidate_ok oracle tp st.1 cp lbl v none r hor] at h
        dsimp only at h
        rcases adoptIfBetter_cases _ r (computeStats r) cp (successFlagOf r) with
          ⟨h1, h2, heq⟩ | ⟨hneg, heq⟩
        · rw [heq] at h
          cases h
          refine Or.inr ⟨cp, r, hmem, rfl, rfl, rfl, rfl,
            ⟨_, rfl, rfl, rfl, rfl, rfl⟩, ?_, ?_⟩
          · simp [h1]
          · exact Or.inl ⟨h1, h2, rfl, rfl, rfl⟩
        · rw [heq] at h
          cases h
          refine Or.inr ⟨cp, r, hmem, rfl, rfl, rfl, rfl,
            ⟨_, rfl, rfl, rfl, rfl, rfl⟩, ?_, ?_⟩
          · cases hsf : successFlagOf r with
            | true => simp [hsf]
            | false => simp [hsf]
          · exact Or.inr ⟨hneg, rfl, rfl, rfl⟩

/-- Full case analysis of one refinement probe that returned `.ok`. -/
theorem probe1_cases (oracle : Oracle) (tp ak lbl : String) (istep fstep : ℚ) (dir : ℤ)
    (st out : TuneState × List ValueKey) (imp : Bool)
    (h : probe1 oracle tp ak lbl istep fstep dir st = .ok (out, imp)) :
    (out = st ∧ imp = false) ∨
    ∃ (cp : ProfileForm) (r : ProfileResult) (formatted : String),
      normalizeValueKey formatted ∉ st.2 ∧
      applyOverrides st.1.bestProfileForm [(ak, formatted)] none (toString st.1.calls) =
        .ok cp ∧
      oracle st.1.calls = .ok r ∧
      out.2 = st.2 ++ [normalizeValueKey formatted] ∧
      out.1.calls = st.1.calls + 1 ∧
      (∃ stp : AutoStep, out.1.steps = st.1.steps ++ [stp] ∧
        stp.parameter = lbl ∧ stp.success = successFlagOf r ∧ stp.errors = r.errors ∧
        stp.stats = computeStats r) ∧
      (if successFlagOf r then
          out.1.candidates = st.1.candidates ++
            [{ profile := r, stats := computeStats r, profileForm := cp,
               parameter := lbl, value := formatted, prompt := tp }]
        else out.1.candidates = st.1.candidates) ∧
      ((imp = true ∧ successFlagOf r = true ∧
          (computeStats r).averageLatency < st.1.bestStats.averageLatency ∧
          out.1.bestStats = computeStats r ∧ out.1.bestResult = r ∧
          out.1.bestProfileForm = cp) ∨
        (imp = false ∧
          ¬(successFlagOf r = true ∧
            (computeStats r).averageLatency < st.1.bestStats.averageLatency) ∧
          out.1.bestStats = st.1.bestStats ∧ out.1.bestResult = st.1.bestResult ∧
          out.1.bestProfileForm = st.1.bestProfileForm)) := by
  unfold probe1 at h
  dsimp only at h
  by_cases hneg : currentBestValue st.1.bestProfileForm ak + ratOfInt dir * fstep < 0
  · rw [if_pos hneg] at h
    cases h
    exact Or.inl ⟨rfl, rfl⟩
  · rw [if_neg hneg] at h
    by_cases hmem :
      normalizeValueKey
          (toFixedStr (currentBestValue st.1.bestProfileForm ak + ratOfInt dir * fstep)
            (if fstep < 1 then 3 else 2)) ∈
        st.2
    · rw [if_pos hmem] at h
      cases h
      exact Or.inl ⟨rfl, rfl⟩
    · rw [if_neg hmem] at h
      cases hap : applyOverrides st.1.bestProfileForm
          [(ak, toFixedStr (currentBestValue st.1.bestProfileForm ak + ratOfInt dir * fstep)
            (if fstep < 1 then 3 else 2))] none (toString st.1.calls) with
      | error e =>
        rw [hap] at h
        cases h
      | ok cp =>
        rw [hap] at h
        dsimp only at h
        cases hor : oracle st.1.calls with
        | error e =>
          rw [evaluateCandidate_error oracle tp st.1 cp lbl _ _ e hor] at h
          cases h
        | ok r =>
          rw [evaluateCandidate_ok oracle tp st.1 cp lbl _ _ r hor] at h
          dsimp only at h
          rcases adoptIfBetter_cases _ r (computeStats r) cp (successFlagOf r) with
            ⟨h1, h2, heq⟩ | ⟨hneg2, heq⟩
          · rw [heq] at h
            cases h
            refine Or.inr ⟨cp, r, _, hmem, hap, rfl, rfl, rfl,
              ⟨_, rfl, rfl, rfl, rfl, rfl⟩, ?_, ?_⟩
            · simp [h1]
            · exact Or.inl ⟨rfl, h1, h2, rfl, rfl, rfl⟩
          · rw [heq] at h
            cases h
            refine Or.inr ⟨cp, r, _, hmem, hap, rfl, rfl, rfl,
              ⟨_, rfl, rfl, rfl, rfl, rfl⟩, ?_, ?_⟩
            · cases hsf : successFlagOf r with
              | true => simp [hsf]
              | false => simp [hsf]
            · exact Or.inr ⟨rfl, hneg2, rfl, rfl, rfl⟩

theorem nodup_append_singleton {α : Type} (l : List α) (a : α)
    (h1 : l.Nodup) (h2 : a ∉ l) : (l ++ [a]).Nodup := by
  rw [List.nodup_append]
  refine ⟨h1, List.nodup_singleton a, ?_⟩
  intro x hx hxa
  rw [List.mem_singleton] at hxa
  subst hxa
  exact h2 hx

/-! ## Latency monotonicity through every optimizer layer -/

theorem sweep1_lat (oracle : Oracle) (tp ak lbl v : String)
    (st out : TuneState × List ValueKey) (h : sweep1 oracle tp ak lbl st v = .ok out) :
    out.1.bestStats.averageLatency ≤ st.1.bestStats.averageLatency := by
  rcases sweep1_cases oracle tp ak lbl v st out h with
    rfl | ⟨cp, r, _, _, _, _, _, _, _, hbest⟩
  · exact le_refl _
  · rcases hbest with ⟨_, hlt, hbs, _, _⟩ | ⟨_, hbs, _, _⟩
    · rw [hbs]
      exact le_of_lt hlt
    · rw [hbs]

theorem probe1_lat (oracle : Oracle) (tp ak lbl : String) (istep fstep : ℚ) (dir : ℤ)
    (st out : TuneState × List ValueKey) (imp : Bool)
    (h : probe1 oracle tp ak lbl istep fstep dir st = .ok (out, imp)) :
    out.1.bestStats.averageLatency ≤ st.1.bestStats.averageLatency := by
  rcases probe1_cases oracle tp ak lbl istep fstep dir st out imp h with
    ⟨rfl, _⟩ | ⟨cp, r, fm, _, _, _, _, _, _, _, hbest⟩
  · exact le_refl _
  · rcases hbest with ⟨_, _, hlt, hbs, _, _⟩ | ⟨_, _, hbs, _, _⟩
    · rw [hbs]
      exact le_of_lt hlt
    · rw [hbs]

theorem climbIter_lat (oracle : Oracle) (tp ak lbl : String) (istep fstep : ℚ)
    (st out : TuneState × List ValueKey) (imp : Bool)
    (h : climbIter oracle tp ak lbl istep fstep st = .ok (out, imp)) :
    out.1.bestStats.averageLatency ≤ st.1.bestStats.averageLatency := by
  unfold climbIter at h
  cases h1 : probe1 oracle tp ak lbl istep fstep (-1) st with
  | error e =>
    rw [h1] at h
    cases h
  | ok p =>
    obtain ⟨st1, b⟩ := p
    rw [h1] at h
    cases b with
    | true =>
      cases h
      exact probe1_lat oracle tp ak lbl istep fstep (-1) st out true h1
    | false =>
      exact le_trans (probe1_lat oracle tp ak lbl istep fstep 1 st1 out imp h)
        (probe1_lat oracle tp ak lbl istep fstep (-1) st st1 false h1)

theorem climb_lat (oracle : Oracle) (tp ak lbl : String) (istep fstep : ℚ) :
    ∀ (fuel : ℕ) (st out : TuneState × List ValueKey),
      climb oracle tp ak lbl istep fstep fuel st = .ok out →
      out.1.bestStats.averageLatency ≤ st.1.bestStats.averageLatency := by
  intro fuel
  induction fuel with
  | zero =>
    intro st out h
    cases h
    exact le_refl _
  | succ fuel ih =>
    intro st out h
    unfold climb at h
    cases h1 : climbIter oracle tp ak lbl istep fstep st with
    | error e =>
      rw [h1] at h
      cases h
    | ok p =>
      obtain ⟨st1, b⟩ := p
      rw [h1] at h
      cases b with
      | true =>
        exact le_trans (ih st1 out h) (climbIter_lat oracle tp ak lbl istep fstep st st1 true h1)
      | false =>
        cases h
        exact climbIter_lat oracle tp ak lbl istep fstep st out false h1

theorem refineAxis_lat (oracle : Oracle) (tp ak lbl : String)
    (st out : TuneState × List ValueKey) (h : refineAxis oracle tp ak lbl st = .ok out) :
    out.1.bestStats.averageLatency ≤ st.1.bestStats.averageLatency := by
  unfold refineAxis at h
  dsimp only at h
  by_cases hnum : (st.2.filterMap fun vk =>
      match vk with
      | .num q => some q
      | .txt _ => none).isEmpty = true
  · rw [if_pos hnum] at h
    cases h
    exact le_refl _
  · rw [if_neg hnum] at h
    refine exFold_rel
      (fun (p q : TuneState × List ValueKey) =>
        q.1.bestStats.averageLatency ≤ p.1.bestStats.averageLatency)
      _ (fun p => le_refl _) (fun a b c hab hbc => le_trans hbc hab) ?_ _ st out h
    intro p a p' hp
    exact climb_lat oracle tp ak lbl _ a 10 p p' hp

theorem axisSearch_lat (oracle : Oracle) (tp : String) (axis : VariationDefinition)
    (s : TuneState) (out : TuneState × List ValueKey)
    (h : axisSearch oracle tp axis s = .ok out) :
    out.1.bestStats.averageLatency ≤ s.bestStats.averageLatency := by
  unfold axisSearch at h
  dsimp only at h
  cases h1 : exFold (sweep1 oracle tp axis.key (if axis.label.isEmpty then axis.key else axis.label))
      (s, []) axis.values with
  | error e =>
    rw [h1] at h
    cases h
  | ok st1 =>
    rw [h1] at h
    have hsweep : st1.1.bestStats.averageLatency ≤ s.bestStats.averageLatency := by
      refine exFold_rel
        (fun (p q : TuneState × List ValueKey) =>
          q.1.bestStats.averageLatency ≤ p.1.bestStats.averageLatency)
        _ (fun p => le_refl _) (fun a b c hab hbc => le_trans hbc hab) ?_ _ (s, []) st1 h1
      intro p a p' hp
      exact sweep1_lat oracle tp axis.key _ a p p' hp
    exact le_trans (refineAxis_lat oracle tp axis.key _ st1 out h) hsweep

theorem runAxis_lat (oracle : Oracle) (tp : String) (s : TuneState)
    (axis : VariationDefinition) (s' : TuneState)
    (h : runAxis oracle tp s axis = .ok s') :
    s'.bestStats.averageLatency ≤ s.bestStats.averageLatency := by
  unfold runAxis at h
  cases h1 : axisSearch oracle tp axis s with
  | error e =>
    rw [h1] at h
    cases h
  | ok st =>
    rw [h1] at h
    cases h
    exact axisSearch_lat oracle tp axis s st h1

/-! ## Tested-key bookkeeping through every refinement layer -/

theorem sweep1_key (oracle : Oracle) (tp ak lbl v : String)
    (st out : TuneState × List ValueKey) (h : sweep1 oracle tp ak lbl st v = .ok out) :
    out.1.calls + st.2.length = st.1.calls + out.2.length ∧
      (st.2.Nodup → out.2.Nodup) := by
  rcases sweep1_cases oracle tp ak lbl v st out h with
    rfl | ⟨cp, r, hmem, _, _, htested, hcalls, _, _, _⟩
  · exact ⟨by omega, fun hn => hn⟩
  · rw [htested, hcalls]
    refine ⟨by simp [List.length_append]; omega, ?_⟩
    intro hn
    exact nodup_append_singleton st.2 _ hn hmem

theorem probe1_key (oracle : Oracle) (tp ak lbl : String) (istep fstep : ℚ) (dir : ℤ)
    (st out : TuneState × List ValueKey) (imp : Bool)
    (h : probe1 oracle tp ak lbl istep fstep dir st = .ok (out, imp)) :
    out.1.calls + st.2.length = st.1.calls + out.2.length ∧
      (st.2.Nodup → out.2.Nodup) := by
  rcases probe1_cases oracle tp ak lbl istep fstep dir st out imp h with
    ⟨rfl, _⟩ | ⟨cp, r, fm, hmem, _, _, htested, hcalls, _, _, _⟩
  · exact ⟨by omega, fun hn => hn⟩
  · rw [htested, hcalls]
    refine ⟨by simp [List.length_append]; omega, ?_⟩
    intro hn
    exact nodup_append_singleton st.2 _ hn hmem

theorem climbIter_key (oracle : Oracle) (tp ak lbl : String) (istep fstep : ℚ)
    (st out : TuneState × List ValueKey) (imp : Bool)
    (h : climbIter oracle tp ak lbl istep fstep st = .ok (out, imp)) :
    out.1.calls + st.2.length = st.1.calls + out.2.length ∧
      (st.2.Nodup → out.2.Nodup) := by
  unfold climbIter at h
  cases h1 : probe1 oracle tp ak lbl istep fstep (-1) st with
  | error e =>
    rw [h1] at h
    cases h
  | ok p =>
    obtain ⟨st1, b⟩ := p
    rw [h1] at h
    cases b with
    | true =>
      cases h
      exact probe1_key oracle tp ak lbl istep fstep (-1) st out true h1
    | false =>
      have k1 := probe1_key oracle tp ak lbl istep fstep (-1) st st1 false h1
      have k2 := probe1_key oracle tp ak lbl istep fstep 1 st1 out imp h
      exact ⟨by omega, fun hn => k2.2 (k1.2 hn)⟩

theorem climb_key (oracle : Oracle) (tp ak lbl : String) (istep fstep : ℚ) :
    ∀ (fuel : ℕ) (st out : TuneState × List ValueKey),
      climb oracle tp ak lbl istep fstep fuel st = .ok out →
      out.1.calls + st.2.length = st.1.calls + out.2.length ∧
        (st.2.Nodup → out.2.Nodup) := by
  intro fuel
  induction fuel with
  | zero =>
    intro st out h
    cases h
    exact ⟨by omega, fun hn => hn⟩
  | succ fuel ih =>
    intro st out h
    unfold climb at h
    cases h1 : climbIter oracle tp ak lbl istep fstep st with
    | error e =>
      rw [h1] at h
      cases h
    | ok p =>
      obtain ⟨st1, b⟩ := p
      rw [h1] at h
      cases b with
      | true =>
        have k1 := climbIter_key oracle tp ak lbl istep fstep st st1 true h1
        have k2 := ih st1 out h
        exact ⟨by omega, fun hn => k2.2 (k1.2 hn)⟩
      | false =>
        cases h
        exact climbIter_key oracle tp ak lbl istep fstep st out false h1

theorem refineAxis_key (oracle : Oracle) (tp ak lbl : String)
    (st out : TuneState × List ValueKey) (h : refineAxis oracle tp ak lbl st = .ok out) :
    out.1.calls + st.2.length = st.1.calls + out.2.length ∧
      (st.2.Nodup → out.2.Nodup) := by
  unfold refineAxis at h
  dsimp only at h
  by_cases hnum : (st.2.filterMap fun vk =>
      match vk with
      | .num q => some q
      | .txt _ => none).isEmpty = true
  · rw [if_pos hnum] at h
    cases h
    exact ⟨by omega, fun hn => hn⟩
  · rw [if_neg hnum] at h
    refine exFold_rel
      (fun (p q : TuneState × List ValueKey) =>
        q.1.calls + p.2.length = p.1.calls + q.2.length ∧ (p.2.Nodup → q.2.Nodup))
      _ (fun p => ⟨by omega, fun hn => hn⟩)
      (fun a b c hab hbc => ⟨by omega, fun hn => hbc.2 (hab.2 hn)⟩) ?_ _ st out h
    intro p a p' hp
    exact climb_key oracle tp ak lbl _ a 10 p p' hp

theorem axisSearch_key (oracle : Oracle) (tp : String) (axis : VariationDefinition)
    (s : TuneState) (out : TuneState × List ValueKey)
    (h : axisSearch oracle tp axis s = .ok out) :
    out.2.Nodup ∧ out.1.calls = s.calls + out.2.length := by
  unfold axisSearch at h
  dsimp only at h
  cases h1 : exFold (sweep1 oracle tp axis.key (if axis.label.isEmpty then axis.key else axis.label))
      (s, []) axis.values with
  | error e =>
    rw [h1] at h
    cases h
  | ok st1 =>
    rw [h1] at h
    have hsweep : st1.1.calls + ([] : List ValueKey).length = s.calls + st1.2.length ∧
        (([] : List ValueKey).Nodup → st1.2.Nodup) := by
      refine exFold_rel
        (fun (p q : TuneState × List ValueKey) =>
          q.1.calls + p.2.length = p.1.calls + q.2.length ∧ (p.2.Nodup → q.2.Nodup))
        _ (fun p => ⟨by omega, fun hn => hn⟩)
        (fun a b c hab hbc => ⟨by omega, fun hn => hbc.2 (hab.2 hn)⟩) ?_ _ (s, []) st1 h1
      intro p a p' hp
      exact sweep1_key oracle tp axis.key _ a p p' hp
    have href := refineAxis_key oracle tp axis.key _ st1 out h
    refine ⟨href.2 (hsweep.2 (List.nodup_nil)), ?_⟩
    have e1 := hsweep.1
    have e2 := href.1
    simp only [List.length_nil] at e1
    omega

/-- Shape of a successful `autoTuneSingle` run: which sub-results it is
assembled from. -/
theorem autoTuneSingle_facts (oracle : Oracle) (matrix : String) (base : ProfileForm)
    (calls : ℕ) (tp : String) (res : AutoTuneResult) (n : ℕ)
    (h : autoTuneSingle oracle matrix base calls tp = .ok (res, n)) :
    res.prompt = tp ∧
    ∃ (defs0 : List VariationDefinition) (r : ProfileResult) (sEnd : TuneState),
      parseVariationInput matrix = .ok defs0 ∧
      oracle calls = .ok r ∧
      res.summary.baseline.stats = computeStats r ∧
      res.summary.best.stats = sEnd.bestStats ∧
      res.bestProfileForm = sEnd.bestProfileForm ∧
      res.bestParameters = extractParameters sEnd.bestProfileForm
        (dedupFirst []
          ((ensureSpeculativeAxis defs0).map (fun d => d.key) ++ ["speculative"])) ∧
      exFold (runAxis oracle tp)
        { calls := calls + 1
          bestProfileForm := cloneProfile base (toString calls)
          bestResult := r
          bestStats := computeStats r
          steps := []
          candidates :=
            [{ profile := r, stats := computeStats r,
               profileForm := cloneProfile base (toString calls),
               parameter := "Baseline", value := "initial", prompt := tp }] }
        (ensureSpeculativeAxis defs0) = .ok sEnd := by
  unfold autoTuneSingle at h
  cases hp : parseVariationInput matrix with
  | error e =>
    rw [hp] at h
    cases h
  | ok defs0 =>
    rw [hp] at h
    dsimp only at h
    by_cases hempty : (ensureSpeculativeAxis defs0).isEmpty = true
    · rw [if_pos hempty] at h
      cases h
    · rw [if_neg hempty] at h
      cases hor : oracle calls with
      | error e =>
        rw [hor] at h
        cases h
      | ok r =>
        rw [hor] at h
        dsimp only at h
        cases hf : exFold (runAxis oracle tp)
            { calls := calls + 1
              bestProfileForm := cloneProfile base (toString calls)
              bestResult := r
              bestStats := computeStats r
              steps := []
              candidates :=
                [{ profile := r, stats := computeStats r,
                   profileForm := cloneProfile base (toString calls),
                   parameter := "Baseline", value := "initial", prompt := tp }] }
            (ensureSpeculativeAxis defs0) with
        | error e =>
          rw [hf] at h
          cases h
        | ok sEnd =>
          rw [hf] at h
          cases h
          exact ⟨rfl, defs0, r, sEnd, rfl, rfl, rfl, rfl, rfl, rfl, hf⟩

/-! # C2: greedy adoption and latency monotonicity -/

/-- **C2**: the best triple is replaced only by a successful candidate
whose mean latency strictly improves on the current best (in both the
discrete sweep and the refinement probes); per axis the best mean latency
never increases; and across a whole `autoTuneSingle` run the final best
mean latency is at most the baseline's, so the sequence of adopted best
averages is non-increasing from the baseline on. -/
theorem C2_theorem :
    (∀ (oracle : Oracle) (tp ak lbl v : String) (st out : TuneState × List ValueKey),
      sweep1 oracle tp ak lbl st v = .ok out →
      (out.1.bestStats = st.1.bestStats ∧ out.1.bestResult = st.1.bestResult ∧
        out.1.bestProfileForm = st.1.bestProfileForm) ∨
      (∃ r : ProfileResult, oracle st.1.calls = .ok r ∧ successFlagOf r = true ∧
        (computeStats r).averageLatency < st.1.bestStats.averageLatency ∧
        out.1.bestStats = computeStats r)) ∧
    (∀ (oracle : Oracle) (tp ak lbl : String) (istep fstep : ℚ) (dir : ℤ)
       (st out : TuneState × List ValueKey) (imp : Bool),
      probe1 oracle tp ak lbl istep fstep dir st = .ok (out, imp) →
      (out.1.bestStats = st.1.bestStats ∧ out.1.bestResult = st.1.bestResult ∧
        out.1.bestProfileForm = st.1.bestProfileForm) ∨
      (∃ r : ProfileResult, oracle st.1.calls = .ok r ∧ successFlagOf r = true ∧
        (computeStats r).averageLatency < st.1.bestStats.averageLatency ∧
        out.1.bestStats = computeStats r)) ∧
    (∀ (oracle : Oracle) (tp : String) (s : TuneState) (axis : VariationDefinition)
       (s' : TuneState),
      runAxis oracle tp s axis = .ok s' →
      s'.bestStats.averageLatency ≤ s.bestStats.averageLatency) ∧
    (∀ (oracle : Oracle) (matrix : String) (base : ProfileForm) (calls : ℕ) (tp : String)
       (res : AutoTuneResult) (n : ℕ) (r : ProfileResult),
      oracle calls = .ok r →
      autoTuneSingle oracle matrix base calls tp = .ok (res, n) →
      res.summary.baseline.stats = computeStats r ∧
      res.summary.best.stats.averageLatency ≤ (computeStats r).averageLatency) := by
  refine ⟨?_, ?_, runAxis_lat, ?_⟩
  · intro oracle tp ak lbl v st out h
    rcases sweep1_cases oracle tp ak lbl v st out h with
      rfl | ⟨cp, r, _, _, hor, _, _, _, _, hbest⟩
    · exact Or.inl ⟨rfl, rfl, rfl⟩
    · rcases hbest with ⟨hs, hlt, hbs, _, _⟩ | ⟨_, hbs, hbr, hbf⟩
      · exact Or.inr ⟨r, hor, hs, hlt, hbs⟩
      · exact Or.inl ⟨hbs, hbr, hbf⟩
  · intro oracle tp ak lbl istep fstep dir st out imp h
    rcases probe1_cases oracle tp ak lbl istep fstep dir st out imp h with
      ⟨rfl, _⟩ | ⟨cp, r, fm, _, _, hor, _, _, _, _, hbest⟩
    · exact Or.inl ⟨rfl, rfl, rfl⟩
    · rcases hbest with ⟨_, hs, hlt, hbs, _, _⟩ | ⟨_, _, hbs, hbr, hbf⟩
      · exact Or.inr ⟨r, hor, hs, hlt, hbs⟩
      · exact Or.inl ⟨hbs, hbr, hbf⟩
  · intro oracle matrix base calls tp res n r hor h
    obtain ⟨-, defs0, r', sEnd, -, hor', hbase, hbest, -, -, hf⟩ :=
      autoTuneSingle_facts oracle matrix base calls tp res n h
    rw [hor] at hor'
    cases hor'
    refine ⟨hbase, ?_⟩
    rw [hbest]
    refine exFold_rel
      (fun (p q : TuneState) => q.bestStats.averageLatency ≤ p.bestStats.averageLatency)
      _ (fun p => le_refl _) (fun a b c hab hbc => le_trans hbc hab) ?_ _
      { calls := calls + 1
        bestProfileForm := cloneProfile base (toString calls)
        bestResult := r
        bestStats := computeStats r
        steps := []
        candidates :=
          [{ profile := r, stats := computeStats r,
             profileForm := cloneProfile base (toString calls),
             parameter := "Baseline", value := "initial", prompt := tp }] }
      sEnd hf
    intro p a p' hp
    exact runAxis_lat oracle tp p a p' hp

set_option maxHeartbeats 1600000 in
/-- Witness for C2: a concrete two-value speculative run whose final best
mean latency is bounded by the 10 ms baseline. -/
theorem C2_witness :
    oracleHaltW 0 = .ok (okResW 10) ∧
    autoTuneSingle oracleHaltW "speculative=false,true" baseFormW 0 "pw" =
      .ok (tuneHaltResW, 3) ∧
    tuneHaltResW.summary.best.stats.averageLatency ≤
      (computeStats (okResW 10)).averageLatency :=
  ⟨by with_unfolding_all decide, by with_unfolding_all decide,
    (C2_theorem.2.2.2 oracleHaltW "speculative=false,true" baseFormW 0 "pw" tuneHaltResW 3
      (okResW 10) (by with_unfolding_all decide) (by with_unfolding_all decide)).2⟩

/-! # C3: the success criterion and its consequences -/

/-- **C3**: a candidate evaluation is successful exactly when the result
carries at least one run and the (always finite, in exact arithmetic)
mean latency is strictly positive; an unsuccessful candidate still gets
its `AutoStep` appended, with the result's error strings, but it is never
recorded as a `CandidateRecord` and never adopted as the best triple —
neither by the discrete sweep nor by a refinement probe. -/
theorem C3_theorem :
    (∀ r : ProfileResult,
      successFlagOf r = true ↔ (r.runs ≠ [] ∧ 0 < (computeStats r).averageLatency)) ∧
    (∀ (oracle : Oracle) (tp : String) (s : TuneState) (cp : ProfileForm)
       (lbl v : String) (origin : Option String) (r : ProfileResult),
      oracle s.calls = .ok r →
      ∃ s', evaluateCandidate oracle tp s cp lbl v origin =
          .ok (r, computeStats r, successFlagOf r, s') ∧
        (∃ stp : AutoStep, s'.steps = s.steps ++ [stp] ∧ stp.success = successFlagOf r ∧
          stp.errors = r.errors) ∧
        (successFlagOf r = false → s'.candidates = s.candidates) ∧
        s'.bestStats = s.bestStats ∧ s'.bestResult = s.bestResult ∧
        s'.bestProfileForm = s.bestProfileForm) ∧
    (∀ (oracle : Oracle) (tp ak lbl v : String) (st out : TuneState × List ValueKey)
       (r : ProfileResult),
      oracle st.1.calls = .ok r → successFlagOf r = false →
      sweep1 oracle tp ak lbl st v = .ok out →
      out.1.bestStats = st.1.bestStats ∧ out.1.bestResult = st.1.bestResult ∧
      out.1.bestProfileForm = st.1.bestProfileForm ∧
      out.1.candidates = st.1.candidates) ∧
    (∀ (oracle : Oracle) (tp ak lbl : String) (istep fstep : ℚ) (dir : ℤ)
       (st out : TuneState × List ValueKey) (imp : Bool) (r : ProfileResult),
      oracle st.1.calls = .ok r → successFlagOf r = false →
      probe1 oracle tp ak lbl istep fstep dir st = .ok (out, imp) →
      out.1.bestStats = st.1.bestStats ∧ out.1.bestResult = st.1.bestResult ∧
      out.1.bestProfileForm = st.1.bestProfileForm ∧
      out.1.candidates = st.1.candidates) := by
  refine ⟨?_, ?_, ?_, ?_⟩
  · intro r
    simp [successFlagOf, List.length_pos]
  · intro oracle tp s cp lbl v origin r hor
    refine ⟨_, evaluateCandidate_ok oracle tp s cp lbl v origin r hor, ⟨_, rfl, rfl, rfl⟩,
      ?_, rfl, rfl, rfl⟩
    intro hf
    simp [hf]
  · intro oracle tp ak lbl v st out r hor hfail h
    rcases sweep1_cases oracle tp ak lbl v st out h with
      rfl | ⟨cp, r', _, _, hor', _, _, _, hcand, hbest⟩
    · exact ⟨rfl, rfl, rfl, rfl⟩
    · rw [hor] at hor'
      cases hor'
      rw [hfail] at hcand
      simp only [Bool.false_eq_true, if_false] at hcand
      rcases hbest with ⟨hs, _, _, _, _⟩ | ⟨_, hbs, hbr, hbf⟩
      · rw [hfail] at hs
        cases hs
      · exact ⟨hbs, hbr, hbf, hcand⟩
  · intro oracle tp ak lbl istep fstep dir st out imp r hor hfail h
    rcases probe1_cases oracle tp ak lbl istep fstep dir st out imp h with
      ⟨rfl, _⟩ | ⟨cp, r', fm, _, _, hor', _, _, _, hcand, hbest⟩
    · exact ⟨rfl, rfl, rfl, rfl⟩
    · rw [hor] at hor'
      cases hor'
      rw [hfail] at hcand
      simp only [Bool.false_eq_true, if_false] at hcand
      rcases hbest with ⟨_, hs, _, _, _, _⟩ | ⟨_, _, hbs, hbr, hbf⟩
      · rw [hfail] at hs
        cases hs
      · exact ⟨hbs, hbr, hbf, hcand⟩

/-- Witness for C3 at a concrete zero-run (hence unsuccessful) sweep step. -/
theorem C3_witness :
    (oracleFailW tuneStateW.calls = .ok failResW ∧ successFlagOf failResW = false ∧
      sweepFailW = .ok sweepFailOutW) ∧
    (sweepFailOutW.1.bestStats = tuneStateW.bestStats ∧
      sweepFailOutW.1.candidates = tuneStateW.candidates) :=
  ⟨⟨rfl, by with_unfolding_all decide, by with_unfolding_all decide⟩,
    (fun h => ⟨h.1, h.2.2.2⟩)
      (C3_theorem.2.2.1 oracleFailW "pw" "speculative" "Mode speculatif" "false"
        (tuneStateW, []) sweepFailOutW failResW rfl (by with_unfolding_all decide)
        (by with_unfolding_all decide))⟩

/-! # C4: per-axis deduplication of normalized value keys -/

/-- **C4**: during the whole processing of one axis for one prompt the
tested-key set only ever grows by keys not previously present, so the
final key list is duplicate-free and the number of benchmark calls issued
during the axis equals the number of recorded keys — each normalized key
is evaluated at most once.  Numeric strings collapse through their parsed
value (`0.5` and `0.50` share one key), non-numeric strings are compared
trimmed, and a concrete sweep over `0.5, 0.50` issues exactly one call. -/
theorem C4_theorem :
    (∀ (oracle : Oracle) (tp : String) (axis : VariationDefinition) (s : TuneState)
       (out : TuneState × List ValueKey),
      axisSearch oracle tp axis s = .ok out →
      out.2.Nodup ∧ out.1.calls = s.calls + out.2.length) ∧
    normalizeValueKey "0.5" = normalizeValueKey "0.50" ∧
    normalizeValueKey " abc " = normalizeValueKey "abc" ∧
    (sweepDupW = .ok sweepDupOutW ∧ sweepDupOutW.1.calls = tuneStateW.calls + 1) := by
  refine ⟨axisSearch_key, ?_, ?_, by with_unfolding_all decide, by with_unfolding_all decide⟩
  · with_unfolding_all decide
  · with_unfolding_all decide

/-- Witness for C4 at a concrete speculative-axis search. -/
theorem C4_witness :
    (axisSpecW = .ok axisSpecOutW) ∧
    (axisSpecOutW.2.Nodup ∧ axisSpecOutW.1.calls = tuneStateW.calls + axisSpecOutW.2.length) :=
  ⟨by with_unfolding_all decide,
    C4_theorem.1 oracleOkW "pw" specAxis tuneStateW axisSpecOutW
      (by with_unfolding_all decide)⟩

/-! # C1: failed evaluations and the rejection of the benchmark call -/

/-- **C1 counterexample**: when the remote benchmark call itself rejects
(the request raises), the whole optimization run aborts with that error —
no `AutoStep` is recorded and no summary is produced — refuting "a failed
evaluation, including the case where the remote call raises/rejects,
never aborts the optimization". -/
theorem C1_counterexample :
    autoTuneSingle oracleRejW "speculative=false,true" baseFormW 0 "pw" = .error "network" := by
  with_unfolding_all decide

/-- **C1** (amended): an evaluation whose *response is delivered* but
fails (zero runs, or a non-positive mean) never aborts the optimization:
the sweep step returns normally, an `AutoStep` with `success = false` and
the candidate's errors is appended, the best triple is unchanged, and the
run continues with the remaining values and axes — concretely, a run whose
first candidate returns zero runs and one error string still completes,
records that step, and adopts the later 9 ms candidate.  (A *rejected*
benchmark call, by contrast, aborts the whole run; see the
counterexample.) -/
theorem C1_theorem :
    (∀ (oracle : Oracle) (tp ak lbl v : String) (st : TuneState × List ValueKey)
       (cp : ProfileForm) (r : ProfileResult),
      normalizeValueKey v ∉ st.2 →
      applyOverrides st.1.bestProfileForm [(ak, v)] none (toString st.1.calls) = .ok cp →
      oracle st.1.calls = .ok r →
      successFlagOf r = false →
      ∃ out, sweep1 oracle tp ak lbl st v = .ok out ∧
        (∃ stp : AutoStep, out.1.steps = st.1.steps ++ [stp] ∧
          stp.success = false ∧ stp.errors = r.errors) ∧
        out.1.bestStats = st.1.bestStats ∧
        out.1.bestProfileForm = st.1.bestProfileForm) ∧
    (tuneHaltW = .ok (tuneHaltResW, 3) ∧
      tuneHaltResW.steps.map (fun stp => stp.success) = [false, true] ∧
      tuneHaltResW.steps.map (fun stp => stp.errors) = [["boom"], []] ∧
      tuneHaltResW.summary.baseline.stats.averageLatency = 10 ∧
      tuneHaltResW.summary.best.stats.averageLatency = 9) := by
  constructor
  · intro oracle tp ak lbl v st cp r hfresh hap hor hfail
    unfold sweep1
    rw [if_neg hfresh, hap]
    dsimp only
    rw [evaluateCandidate_ok oracle tp st.1 cp lbl v none r hor]
    dsimp only
    rcases adoptIfBetter_cases
        { st.1 with
          calls := st.1.calls + 1
          steps := st.1.steps ++
            [{ parameter := lbl
               value := v
               stats := computeStats r
               success := successFlagOf r
               errors := r.errors
               improvement := st.1.bestStats.averageLatency - (computeStats r).averageLatency }]
          candidates :=
            if successFlagOf r then
              st.1.candidates ++
                [{ profile := r, stats := computeStats r, profileForm := cp,
                   parameter := lbl, value := v, prompt := tp }]
            else st.1.candidates }
        r (computeStats r) cp (successFlagOf r) with ⟨h1, _, _⟩ | ⟨_, heq⟩
    · rw [hfail] at h1
      cases h1
    · rw [heq]
      exact ⟨_, rfl, ⟨_, rfl, hfail, rfl⟩, rfl, rfl⟩
  · refine ⟨by with_unfolding_all decide, by with_unfolding_all decide,
      by with_unfolding_all decide, by with_unfolding_all decide,
      by with_unfolding_all decide⟩

/-- Witness for C1 at a concrete zero-run response. -/
theorem C1_witness :
    (normalizeValueKey "false" ∉ ([] : List ValueKey) ∧
      overrideFailW = .ok overrideFailFormW ∧
      oracleFailW tuneStateW.calls = .ok failResW ∧
      successFlagOf failResW = false) ∧
    (∃ out, sweep1 oracleFailW "pw" "speculative" "Mode speculatif" (tuneStateW, []) "false" =
        .ok out ∧
      (∃ stp : AutoStep, out.1.steps = tuneStateW.steps ++ [stp] ∧
        stp.success = false ∧ stp.errors = failResW.errors) ∧
      out.1.bestStats = tuneStateW.bestStats ∧
      out.1.bestProfileForm = tuneStateW.bestProfileForm) :=
  ⟨⟨by with_unfolding_all decide, by with_unfolding_all decide, rfl,
      by with_unfolding_all decide⟩,
    C1_theorem.1 oracleFailW "pw" "speculative" "Mode speculatif" "false" (tuneStateW, [])
      overrideFailFormW failResW (by with_unfolding_all decide)
      (by with_unfolding_all decide) rfl (by with_unfolding_all decide)⟩

/-! # C10: the speculative axis is always tested and reported -/

theorem lookupRec_extractAssign_ne (p : ProfileForm) (acc : List (String × String))
    (k : String) (hk : k ≠ "speculative") :
    lookupRec (extractAssign p acc k) "speculative" = lookupRec acc "speculative" := by
  unfold extractAssign
  rw [if_neg hk]
  by_cases h2 : k = "samples"
  · rw [if_pos h2]
    exact lookupRec_recAssign_ne acc k _ "speculative" (fun hh => hk hh.symm)
  · rw [if_neg h2]
    by_cases h3 : k ∈ OPTION_KEYS
    · rw [if_pos h3]
      exact lookupRec_recAssign_ne acc k _ "speculative" (fun hh => hk hh.symm)
    · rw [if_neg h3]
      by_cases h4 : k ∈ SETTING_KEYS
      · rw [if_pos h4]
        exact lookupRec_recAssign_ne acc k _ "speculative" (fun hh => hk hh.symm)
      · rw [if_neg h4]

theorem lookupRec_extract_spec (p : ProfileForm) :
    ∀ (keys : List String) (acc : List (String × String)),
      lookupRec (keys.foldl (extractAssign p) acc) "speculative" =
        if "speculative" ∈ keys then some (if p.speculative then "true" else "false")
        else lookupRec acc "speculative" := by
  intro keys
  induction keys with
  | nil =>
    intro acc
    simp
  | cons k keys ih =>
    intro acc
    simp only [List.foldl_cons]
    rw [ih]
    by_cases hmem : "speculative" ∈ keys
    · rw [if_pos hmem, if_pos (List.mem_cons_of_mem k hmem)]
    · rw [if_neg hmem]
      by_cases hk : k = "speculative"
      · subst hk
        rw [if_pos (by simp)]
        unfold extractAssign
        rw [if_pos rfl]
        exact lookupRec_recAssign_self acc _ _
      · rw [if_neg (by
          intro h
          rcases List.mem_cons.mp h with h1 | h2
          · exact hk h1.symm
          · exact hmem h2)]
        exact lookupRec_extractAssign_ne p acc k hk

/-- **C10**: when the parsed variation axes declare no `speculative` axis,
`autoTuneSingle` appends `speculative = [false, true]` at the end of the
axis list before optimizing, and every successful run's best-parameter
snapshot carries a `speculative` entry reflecting the winning profile; a
concrete run on `llm_model_path=a,b` probes the model-path axis and then
both speculative settings, and reports `speculative=false`. -/
theorem C10_theorem :
    (∀ defs : List VariationDefinition,
      (∀ d ∈ defs, d.key ≠ "speculative") →
      ensureSpeculativeAxis defs = defs ++ [specAxis]) ∧
    (∀ (oracle : Oracle) (matrix : String) (base : ProfileForm) (calls : ℕ) (tp : String)
       (res : AutoTuneResult) (n : ℕ),
      autoTuneSingle oracle matrix base calls tp = .ok (res, n) →
      lookupRec res.bestParameters "speculative" =
        some (if res.bestProfileForm.speculative then "true" else "false")) ∧
    (tuneSpecW = .ok (tuneSpecResW, 5) ∧
      tuneSpecResW.steps.map (fun stp => stp.parameter) =
        ["llm_model_path", "llm_model_path", "Mode speculatif", "Mode speculatif"] ∧
      tuneSpecResW.steps.map (fun stp => stp.value) = ["a", "b", "false", "true"] ∧
      lookupRec tuneSpecResW.bestParameters "speculative" = some "false") := by
  refine ⟨?_, ?_, by with_unfolding_all decide, by with_unfolding_all decide,
    by with_unfolding_all decide, by with_unfolding_all decide⟩
  · intro defs habs
    unfold ensureSpeculativeAxis
    rw [if_neg ?_]
    intro h
    rcases List.any_eq_true.mp h with ⟨d, hd, hkey⟩
    exact habs d hd (by simpa using hkey)
  · intro oracle matrix base calls tp res n h
    obtain ⟨-, defs0, r, sEnd, -, -, -, -, hform, hparams, -⟩ :=
      autoTuneSingle_facts oracle matrix base calls tp res n h
    rw [hparams, hform]
    unfold extractParameters
    rw [lookupRec_extract_spec]
    rw [if_pos ((mem_dedupFirst [] _ "speculative").mpr
      ⟨List.mem_append.mpr (Or.inr (by simp)), by simp⟩)]

/-- Witness for C10 at the concrete `llm_model_path=a,b` run. -/
theorem C10_witness :
    tuneSpecW = .ok (tuneSpecResW, 5) ∧
    lookupRec tuneSpecResW.bestParameters "speculative" =
      some (if tuneSpecResW.bestProfileForm.speculative then "true" else "false") :=
  ⟨by with_unfolding_all decide,
    C10_theorem.2.1 oracleOkW "llm_model_path=a,b" baseFormW 0 "pw" tuneSpecResW 5
      (by with_unfolding_all decide)⟩

/-! # C7: the multi-prompt aggregator -/

theorem runPrompts_map (oracle : Oracle) (matrix : String) (base : ProfileForm) :
    ∀ (prompts : List String) (acc out : List AutoTuneResult × ℕ),
      exFold (runPromptsStep oracle matrix base) acc prompts = .ok out →
      out.1.map (fun r => r.prompt) = acc.1.map (fun r => r.prompt) ++ prompts := by
  intro prompts
  induction prompts with
  | nil =>
    intro acc out h
    rw [exFold_nil] at h
    cases h
    simp
  | cons p ps ih =>
    intro acc out h
    rw [exFold_cons] at h
    cases hstep : runPromptsStep oracle matrix base acc p with
    | error e =>
      rw [hstep] at h
      cases h
    | ok acc' =>
      rw [hstep] at h
      have hmap := ih acc' out h
      unfold runPromptsStep at hstep
      cases hts : autoTuneSingle oracle matrix base acc.2 p with
      | error e =>
        rw [hts] at hstep
        cases hstep
      | ok q =>
        obtain ⟨res, calls'⟩ := q
        rw [hts] at hstep
        cases hstep
        rw [hmap]
        have hres : res.prompt = p :=
          (autoTuneSingle_facts oracle matrix base acc.2 p res calls' hts).1
        simp [hres]

theorem pickBestRun_foldl :
    ∀ (rest : List AutoTuneResult) (first : AutoTuneResult),
      rest.foldl pickBestRun first ∈ first :: rest ∧
      ∀ x ∈ first :: rest,
        (rest.foldl pickBestRun first).summary.best.stats.averageLatency ≤
          x.summary.best.stats.averageLatency := by
  intro rest
  induction rest with
  | nil =>
    intro first
    refine ⟨by simp, ?_⟩
    intro x hx
    rw [List.mem_singleton] at hx
    rw [hx, List.foldl_nil]
  | cons a rest ih =>
    intro first
    simp only [List.foldl_cons]
    have hpick : pickBestRun first a ∈ ([first, a] : List AutoTuneResult) ∧
        (pickBestRun first a).summary.best.stats.averageLatency ≤
          first.summary.best.stats.averageLatency ∧
        (pickBestRun first a).summary.best.stats.averageLatency ≤
          a.summary.best.stats.averageLatency := by
      unfold pickBestRun
      by_cases hc : a.summary.best.stats.averageLatency <
          first.summary.best.stats.averageLatency
      · rw [if_pos hc]
        exact ⟨by simp, le_of_lt hc, le_refl _⟩
      · rw [if_neg hc]
        exact ⟨by simp, le_refl _, le_of_not_lt hc⟩
    have hih := ih (pickBestRun first a)
    constructor
    · rcases List.mem_cons.mp hih.1 with heq | hmem
      · rw [heq]
        rcases List.mem_cons.mp hpick.1 with h1 | h1
        · rw [h1]
          exact List.mem_cons_self _ _
        · rw [List.mem_singleton] at h1
          rw [h1]
          simp
      · simp [hmem]
    · intro x hx
      rcases List.mem_cons.mp hx with h1 | hx2
      · rw [h1]
        exact le_trans (hih.2 _ (List.mem_cons_self _ _)) hpick.2.1
      · rcases List.mem_cons.mp hx2 with h2 | hx3
        · rw [h2]
          exact le_trans (hih.2 _ (List.mem_cons_self _ _)) hpick.2.2
        · exact hih.2 x (List.mem_cons_of_mem _ hx3)

/-- **C7** (amended): the multi-prompt auto-tune runs the full per-prompt
optimization once per entry of the prompt list `primary :: (additional
prompts with occurrences of the primary removed)` — duplicates *among*
the additional prompts are each optimized again — selects as the global
result a run whose best mean latency is minimal over all runs, and the
combined journal contains every step of every per-prompt run with its
parameter label annotated by the originating prompt. -/
theorem C7_theorem (oracle : Oracle) (matrix : String) (base : ProfileForm)
    (promptRaw autoRaw : String) (out : RunOutcome)
    (h : runAutoTune oracle matrix base promptRaw autoRaw = .ok out) :
    out.runResults.map (fun r => r.prompt) = promptsToRunOf (jsTrim promptRaw) autoRaw ∧
    out.bestRun ∈ out.runResults ∧
    (∀ r ∈ out.runResults,
      out.bestRun.summary.best.stats.averageLatency ≤
        r.summary.best.stats.averageLatency) ∧
    (∀ entry ∈ out.runResults, ∀ stp ∈ entry.steps,
      annotateStep entry.prompt stp ∈ out.combinedSteps) := by
  unfold runAutoTune at h
  dsimp only at h
  by_cases hbp : jsIsEmpty (jsTrim promptRaw) = true
  · rw [if_pos hbp] at h
    cases h
  · rw [if_neg hbp] at h
    cases hfold : exFold (runPromptsStep oracle matrix base) (([] : List AutoTuneResult), 0)
        (promptsToRunOf (jsTrim promptRaw) autoRaw) with
    | error e =>
      rw [hfold] at h
      cases h
    | ok acc =>
      rw [hfold] at h
      dsimp only at h
      obtain ⟨runResults, counter⟩ := acc
      have hmap := runPrompts_map oracle matrix base _ _ _ hfold
      simp only [List.map_nil, List.nil_append] at hmap
      cases hrr : runResults with
      | nil =>
        rw [hrr] at h
        cases h
      | cons first rest =>
        rw [hrr] at h hmap
        dsimp only at h
        cases h
        refine ⟨hmap, ?_, ?_, ?_⟩
        · exact (pickBestRun_foldl rest first).1
        · exact fun r hr => (pickBestRun_foldl rest first).2 r hr
        · intro entry hentry stp hstp
          rw [mem_sortByLe]
          rw [List.mem_flatMap]
          exact ⟨entry, hentry, List.mem_map_of_mem _ hstp⟩

set_option maxHeartbeats 1600000 in
/-- **C7 counterexample**: with the additional-prompt text `b\nb` the
prompt `b` is optimized twice — the per-prompt runs are `[a, b, b]` — so
"no prompt optimized twice" fails: only occurrences of the *primary*
prompt are filtered from the additional prompts. -/
theorem C7_counterexample :
    runFailW = .ok runFailOutW ∧
    runFailOutW.runResults.map (fun r => r.prompt) = ["a", "b", "b"] :=
  ⟨by with_unfolding_all decide, by with_unfolding_all decide⟩

set_option maxHeartbeats 1600000 in
/-- Witness for C7 at the concrete duplicated-prompt run. -/
theorem C7_witness :
    runFailW = .ok runFailOutW ∧
    (runFailOutW.runResults.map (fun r => r.prompt) =
        promptsToRunOf (jsTrim "a") "b\nb" ∧
      runFailOutW.bestRun ∈ runFailOutW.runResults) :=
  ⟨by with_unfolding_all decide,
    (fun hc => ⟨hc.1, hc.2.1⟩)
      (C7_theorem oracleFailW "speculative=false,true" baseFormW "a" "b\nb" runFailOutW
        (by with_unfolding_all decide))⟩
